import Mathlib

/-!
The module caddy-basically: the request gate of `plugin.go`

A shallow embedding of `middleware.ServeHTTP`, `middleware.basicAuth` and of the
`userToGroups` index built in `parseBlock`, followed by the properties proved of them.

Conventions of the embedding.

* A Go `string` is a Lean `String`; `[]byte(s)` is the list of the UTF-8 bytes of `s`.
* A Go `map[string]T` is an association list read by `mapGet` (first binding of a key)
  and written by `mapSet` (overwrite the binding, or add one). A Go map has one binding
  per key; where a statement depends on that, it says `keysDistinct`.
* The order in which `range` visits a Go map is unspecified: the list order of
  `Manifest.Groups` stands for the order of one run, and statements hold for every order.
* `httpserver.Path(p).Matches(pp)`, which belongs to the host server, is a parameter
  `Matches : String → String → Bool`.
* `r.BasicAuth()` is a field of the request: `none` when the call reports `ok = false`.
* The response writer is explicit state; the calls made to `m.next` are recorded in the
  result, each with the writer and the request it was entered with.
* `http.Header` is a `map[string][]string`. `w.Header().Set(k, v)` writes the one-element
  slice `[v]` under `textproto.CanonicalMIMEHeaderKey(k)`, replacing what was there, and
  `Header.Get(k)` reads the first value under the canonical key (`headerSet`, `headerGet`).
-/

namespace Basically

/-! ## Go maps -/

/-- A Go `map[string]β`, as the list of its bindings. -/
abbrev GoMap (β : Type) := List (String × β)

/-- The read `v, ok := m[k]`: `none` stands for `ok = false`. -/
def mapGet {β : Type} : GoMap β → String → Option β
  | [], _ => none
  | (k', v) :: rest, k => if k' = k then some v else mapGet rest k

/-- The write `m[k] = v`. -/
def mapSet {β : Type} : GoMap β → String → β → GoMap β
  | [], k, v => [(k, v)]
  | (k', v') :: rest, k, v => if k' = k then (k, v) :: rest else (k', v') :: mapSet rest k v

/-- Each key is bound once, as in every Go map. -/
def keysDistinct {β : Type} (m : GoMap β) : Prop := (m.map Prod.fst).Nodup

instance {β : Type} (m : GoMap β) : Decidable (keysDistinct m) := by
  unfold keysDistinct; infer_instance

/-! ## Data model (`plugin.go`, lines 21-44) -/

/-- The struct `Rule`. -/
structure Rule where
  appliesToKind : String
  appliesToValue : String
  methods : List String
deriving DecidableEq, Repr

/-- The struct `Manifest`. -/
structure Manifest where
  Users : GoMap String
  Groups : GoMap (List String)
  userToGroups : GoMap (List String)
deriving DecidableEq, Repr

/-- The struct `Config`. -/
structure Config where
  manifestPath : String
  path : List String
  rules : List Rule
  manifest : Manifest
deriving DecidableEq, Repr

/-- What `ServeHTTP` reads of an `*http.Request`. -/
structure Request where
  Method : String
  Path : String
  BasicAuth : Option (String × String)
deriving DecidableEq, Repr

/-- The state of an `http.ResponseWriter`: its header map and the body written so far. -/
structure ResponseWriter where
  header : GoMap (List String)
  body : String
deriving DecidableEq, Repr

/-- What a handler call leaves behind: the writer, the returned `(int, error)`, and the
calls made to the next handler. -/
structure Result where
  w : ResponseWriter
  status : Int
  err : Option String
  nextCalls : List (ResponseWriter × Request)
deriving DecidableEq, Repr

/-- An `httpserver.Handler`: from writer and request to the writer it leaves and the
`(int, error)` it returns. -/
abbrev Handler := ResponseWriter → Request → ResponseWriter × Int × Option String

/-- The struct `middleware`. -/
structure middleware where
  config : List Config
  next : Handler

/-- The constant `http.StatusUnauthorized`. -/
def StatusUnauthorized : Int := 401

/-! ## `net/textproto` and `net/http`: the header map -/

/-- The table `isTokenTable` behind `validHeaderFieldByte`: the bytes allowed in a header
field name, that is ASCII letters, digits and the punctuation of an HTTP token. -/
def validHeaderFieldByte (c : Char) : Bool :=
  c.isAlphanum || "!#$%&'*+-.^_`|~".toList.contains c

/-- The casing loop of `canonicalMIMEHeaderKey`: a letter is made upper case at the start
and after a hyphen, lower case elsewhere. -/
def canonicalCase : Bool → List Char → List Char
  | _, [] => []
  | upper, c :: cs =>
    let c' :=
      if upper && c.isLower then c.toUpper
      else if !upper && c.isUpper then c.toLower
      else c
    c' :: canonicalCase (c' == '-') cs

/-- The function `textproto.CanonicalMIMEHeaderKey`: a key with a byte that is not allowed
in a field name is returned as it is, any other key in canonical casing. -/
def CanonicalMIMEHeaderKey (s : String) : String :=
  if s.toList.all validHeaderFieldByte then String.mk (canonicalCase true s.toList) else s

/-- The method `Header.Set`. -/
def headerSet (h : GoMap (List String)) (key value : String) : GoMap (List String) :=
  mapSet h (CanonicalMIMEHeaderKey key) [value]

/-- The method `Header.Get`: the first value under the canonical key, `""` when there is
none. -/
def headerGet (h : GoMap (List String)) (key : String) : String :=
  match mapGet h (CanonicalMIMEHeaderKey key) with
  | some (v :: _) => v
  | _ => ""

/-! ## `crypto/subtle` -/

/-- The conversion `[]byte(s)`. -/
def bytes (s : String) : List Nat := s.toUTF8.data.toList.map UInt8.toNat

/-- The function `subtle.ConstantTimeByteEq`: `int((uint32(x^y) - 1) >> 31)`. -/
def ConstantTimeByteEq (x y : Nat) : Int :=
  ((((x ^^^ y) + 2 ^ 32 - 1) % 2 ^ 32) / 2 ^ 31 : Nat)

/-- The loop of `subtle.ConstantTimeCompare`: `v |= x[i] ^ y[i]` on a `byte`. -/
def xorLoop : List Nat → List Nat → Nat → Nat
  | a :: x, b :: y, v => xorLoop x y ((v ||| (a ^^^ b)) % 256)
  | _, _, v => v

/-- The function `subtle.ConstantTimeCompare`. -/
def ConstantTimeCompare (x y : List Nat) : Int :=
  if x.length ≠ y.length then 0
  else ConstantTimeByteEq (xorLoop x y 0) 0

/-! ## `parseBlock`, lines 86-97: the index from user to groups -/

/-- The inner loop `for _, user := range users` (lines 88-96). -/
def addUsers (group : String) : List String → GoMap (List String) → GoMap (List String)
  | [], utg => utg
  | user :: rest, utg =>
    match mapGet utg user with
    | some gs => addUsers group rest (mapSet utg user (gs ++ [group]))
    | none => addUsers group rest (mapSet utg user [group])

/-- The outer loop `for group, users := range manifest.Groups` (lines 87-97). -/
def groupsLoop : GoMap (List String) → GoMap (List String) → GoMap (List String)
  | [], utg => utg
  | (group, users) :: rest, utg => groupsLoop rest (addUsers group users utg)

/-- Lines 86-97: `userToGroups` starts empty and is filled from `Groups`. -/
def buildUserToGroups (groups : GoMap (List String)) : GoMap (List String) :=
  groupsLoop groups []

/-- The read `m[k]` of a map of slices: the nil slice when the key is absent. -/
def sliceAt (m : GoMap (List String)) (k : String) : List String :=
  (mapGet m k).getD []

/-! ## `middleware.basicAuth` and `middleware.ServeHTTP` (lines 150-217) -/

/-- The method `middleware.basicAuth` (lines 150-153). -/
def basicAuth (w : ResponseWriter) (realm : String) : Result :=
  { w := { w with header := headerSet w.header "WWW-Authenticate" ("Basic realm=\"" ++ realm ++ "\"") },
    status := StatusUnauthorized,
    err := none,
    nextCalls := [] }

/-- Lines 162-168: is some path of the block matched by the request path? -/
def protecting (Matches : String → String → Bool) (urlPath : String) : List String → Bool
  | [] => false
  | pp :: rest => if Matches urlPath pp then true else protecting Matches urlPath rest

/-- Lines 187-193: is the request method among the rule's methods? -/
def foundMethod (reqMethod : String) : List String → Bool
  | [] => false
  | method :: rest => if method = reqMethod then true else foundMethod reqMethod rest

/-- Lines 203-208: does some group of the user equal the rule's value? `true` is the
`break rulesLoop` with `matched = true`. -/
def groupLoop (value : String) : List String → Bool
  | [] => false
  | group :: rest => if group = value then true else groupLoop value rest

/-- Lines 185-210: the scan of the rules, from the current value of `matched`. -/
def rulesLoop (reqMethod : String) (groups : List String) : List Rule → Bool → Bool
  | [], matched => matched
  | rule :: rest, matched =>
    if foundMethod reqMethod rule.methods = false then rulesLoop reqMethod groups rest matched
    else if rule.appliesToKind = "authenticated" then rulesLoop reqMethod groups rest true
    else if rule.appliesToKind = "group" then
      if groupLoop rule.appliesToValue groups then true
      else rulesLoop reqMethod groups rest matched
    else rulesLoop reqMethod groups rest matched

/-- Lines 173-178: `true` when the block's credential check lets the request on, that is
when `!ok || subtle.ConstantTimeCompare(...) != 1` is false. -/
def credentialsPass (man : Manifest) (username password : String) : Bool :=
  match mapGet man.Users username with
  | none => false
  | some desiredPassword =>
    if ConstantTimeCompare (bytes desiredPassword) (bytes password) ≠ 1 then false else true

/-- The call `m.next.ServeHTTP(w, r)` of line 216, recorded. -/
def callNext (m : middleware) (w : ResponseWriter) (r : Request) : Result :=
  let out := m.next w r
  { w := out.1, status := out.2.1, err := out.2.2, nextCalls := [(w, r)] }

/-- Lines 161-216: the loop over the blocks and the final call. -/
def configLoop (Matches : String → String → Bool) (m : middleware) (w : ResponseWriter)
    (r : Request) (username password : String) : List Config → Result
  | [] => callNext m w r
  | c :: rest =>
    if protecting Matches r.Path c.path = false then
      configLoop Matches m w r username password rest
    else if credentialsPass c.manifest username password = false then
      basicAuth w ("Invalid password " ++ username ++ " - " ++ password)
    else
      let groups := sliceAt c.manifest.userToGroups username
      let matched := rulesLoop r.Method groups c.rules false
      if matched = false then basicAuth w "Unauthorized"
      else configLoop Matches m w r username password rest

/-- Lines 169-214 for one block: `true` when the loop goes on to the next block, either
by the `continue` of line 170 or by getting past the returns of lines 179 and 213. -/
def blockPasses (Matches : String → String → Bool) (r : Request) (username password : String)
    (c : Config) : Bool :=
  if protecting Matches r.Path c.path = false then true
  else if credentialsPass c.manifest username password = false then false
  else rulesLoop r.Method (sliceAt c.manifest.userToGroups username) c.rules false

/-- The realm passed to `basicAuth` by a block that returns: line 179 or line 213. -/
def blockRealm (username password : String) (c : Config) : String :=
  if credentialsPass c.manifest username password = false then
    "Invalid password " ++ username ++ " - " ++ password
  else "Unauthorized"

/-- The method `middleware.ServeHTTP` (lines 155-217). -/
def ServeHTTP (Matches : String → String → Bool) (m : middleware) (w : ResponseWriter)
    (r : Request) : Result :=
  match r.BasicAuth with
  | none => basicAuth w "Please log in"
  | some (username, password) => configLoop Matches m w r username password m.config

/-! ## Sample inputs

The manifest and block of the first end-to-end scenario: user `alice` with password `pw1`,
member of `admins`; one block on `/secret` with the rule `group admins GET`. -/

/-- A path matcher for the samples: a pattern matches the path equal to it. -/
def exactMatch : String → String → Bool := fun p pp => decide (p = pp)

/-- The sample manifest, indexed as `parseBlock` does. -/
def sampleManifest : Manifest :=
  { Users := [("alice", "pw1")],
    Groups := [("admins", ["alice"])],
    userToGroups := buildUserToGroups [("admins", ["alice"])] }

/-- The sample block. -/
def sampleConfig : Config :=
  { manifestPath := "manifest.json",
    path := ["/secret"],
    rules := [{ appliesToKind := "group", appliesToValue := "admins", methods := ["GET"] }],
    manifest := sampleManifest }

/-- A next handler that writes a body and returns `(200, nil)`. -/
def sampleNext : Handler := fun w _ => ({ w with body := w.body ++ "ok" }, 200, none)

/-- The sample middleware: the sample block in front of `sampleNext`. -/
def sampleMiddleware : middleware := { config := [sampleConfig], next := sampleNext }

/-- A fresh response writer. -/
def emptyWriter : ResponseWriter := { header := [], body := "" }

/-- The request `GET /secret` with credentials `alice:pw1`. -/
def goodRequest : Request :=
  { Method := "GET", Path := "/secret", BasicAuth := some ("alice", "pw1") }

/-- The request `GET /secret` with credentials `alice:wrong`. -/
def wrongPasswordRequest : Request :=
  { Method := "GET", Path := "/secret", BasicAuth := some ("alice", "wrong") }

/-- The request `GET /public` without an `Authorization` header. -/
def anonymousPublicRequest : Request :=
  { Method := "GET", Path := "/public", BasicAuth := none }

/-- The request `GET /public` with credentials no manifest knows. -/
def strangerPublicRequest : Request :=
  { Method := "GET", Path := "/public", BasicAuth := some ("mallory", "guess") }

/-- The request `GET /secret` with credentials `alice:other`. -/
def otherWrongPasswordRequest : Request :=
  { Method := "GET", Path := "/secret", BasicAuth := some ("alice", "other") }

/-- The request `POST /secret` with credentials `alice:pw1`. -/
def postRequest : Request :=
  { Method := "POST", Path := "/secret", BasicAuth := some ("alice", "pw1") }

/-- The request `GET /secret` without an `Authorization` header. -/
def anonymousSecretRequest : Request :=
  { Method := "GET", Path := "/secret", BasicAuth := none }

/-- The rule `authenticated GET`. -/
def authenticatedGet : Rule :=
  { appliesToKind := "authenticated", appliesToValue := "", methods := ["GET"] }

/-- The rule `group admins GET`. -/
def adminsGet : Rule :=
  { appliesToKind := "group", appliesToValue := "admins", methods := ["GET"] }

/-- The rule `group staff` with no method. -/
def staffNoMethod : Rule :=
  { appliesToKind := "group", appliesToValue := "staff", methods := [] }

/-- A manifest where `bob` has a password and belongs to no group. -/
def loneUserManifest : Manifest :=
  { Users := [("alice", "pw1"), ("bob", "pw2")],
    Groups := [("admins", ["alice"])],
    userToGroups := buildUserToGroups [("admins", ["alice"])] }

/-- A block on `/secret` over `loneUserManifest` with the rules `group admins GET` and
`authenticated GET`. -/
def loneUserConfig : Config :=
  { manifestPath := "manifest.json",
    path := ["/secret"],
    rules := [adminsGet, authenticatedGet],
    manifest := loneUserManifest }

/-- The request `GET /secret` with credentials `bob:pw2`. -/
def bobRequest : Request :=
  { Method := "GET", Path := "/secret", BasicAuth := some ("bob", "pw2") }

/-- A manifest where `alice` belongs to two groups, listed in one order. -/
def twoGroupsManifest : Manifest :=
  { Users := [("alice", "pw1")],
    Groups := [("admins", ["alice"]), ("staff", ["alice"])],
    userToGroups := [("alice", ["admins", "staff"])] }

/-- The same manifest with the groups of `alice` in the other order. -/
def twoGroupsManifestSwapped : Manifest :=
  { twoGroupsManifest with userToGroups := [("alice", ["staff", "admins"])] }

/-! ## Specification-side definitions -/

/-- The variant of the rule scan that the specification compares with the source: the
`break` of the "authenticated" case leaves the whole scan, as `break rulesLoop` does in
the "group" case. Written after the specification's wording, not after the source. -/
def rulesLoopEarlyExit (reqMethod : String) (groups : List String) : List Rule → Bool → Bool
  | [], matched => matched
  | rule :: rest, matched =>
    if foundMethod reqMethod rule.methods = false then
      rulesLoopEarlyExit reqMethod groups rest matched
    else if rule.appliesToKind = "authenticated" then true
    else if rule.appliesToKind = "group" then
      if groupLoop rule.appliesToValue groups then true
      else rulesLoopEarlyExit reqMethod groups rest matched
    else rulesLoopEarlyExit reqMethod groups rest matched

/-- Two blocks that differ at most in the order of the groups inside each user's
`userToGroups` entry (and in fields `ServeHTTP` does not read). -/
def sameUpToGroupOrder (c c' : Config) : Prop :=
  c'.path = c.path ∧ c'.rules = c.rules ∧ c'.manifest.Users = c.manifest.Users ∧
    ∀ u, List.Perm (sliceAt c.manifest.userToGroups u) (sliceAt c'.manifest.userToGroups u)

/-! ## Lemmas: the constant-time comparison -/

theorem bytes_lt (s : String) : ∀ b ∈ bytes s, b < 256 := by
  intro b hb
  simp only [bytes, List.mem_map] at hb
  obtain ⟨x, _, rfl⟩ := hb
  exact UInt8.toNat_lt x

theorem or_eq_zero_iff (a b : Nat) : a ||| b = 0 ↔ a = 0 ∧ b = 0 := by
  constructor
  · intro h
    constructor
    · apply Nat.eq_of_testBit_eq; intro i
      have := congrArg (fun n => n.testBit i) h
      simp only [Nat.testBit_or, Nat.zero_testBit, Bool.or_eq_false_iff] at this
      simp [this.1]
    · apply Nat.eq_of_testBit_eq; intro i
      have := congrArg (fun n => n.testBit i) h
      simp only [Nat.testBit_or, Nat.zero_testBit, Bool.or_eq_false_iff] at this
      simp [this.2]
  · rintro ⟨rfl, rfl⟩; rfl

theorem xorLoop_lt : ∀ (x y : List Nat) (v : Nat), v < 256 → xorLoop x y v < 256
  | [], _, v, h => by simpa [xorLoop] using h
  | _ :: _, [], v, h => by simpa [xorLoop] using h
  | a :: x, b :: y, v, _ => by
    rw [xorLoop]
    exact xorLoop_lt x y _ (Nat.mod_lt _ (by decide))

theorem xorLoop_eq_zero : ∀ (x y : List Nat) (v : Nat), x.length = y.length →
    (∀ a ∈ x, a < 256) → (∀ b ∈ y, b < 256) → v < 256 →
    (xorLoop x y v = 0 ↔ v = 0 ∧ x = y)
  | [], [], v, _, _, _, _ => by simp [xorLoop]
  | [], _ :: _, _, h, _, _, _ => by simp at h
  | _ :: _, [], _, h, _, _, _ => by simp at h
  | a :: x, b :: y, v, h, hx, hy, hv => by
    have ha : a < 256 := hx a (List.mem_cons_self _ _)
    have hb : b < 256 := hy b (List.mem_cons_self _ _)
    have hlt : v ||| (a ^^^ b) < 256 :=
      @Nat.or_lt_two_pow _ _ 8 hv (@Nat.xor_lt_two_pow _ _ 8 ha hb)
    rw [xorLoop, Nat.mod_eq_of_lt hlt,
      xorLoop_eq_zero x y _ (by simpa using h) (fun a h => hx a (List.mem_cons_of_mem _ h))
        (fun b h => hy b (List.mem_cons_of_mem _ h)) hlt,
      or_eq_zero_iff, Nat.xor_eq_zero]
    simp only [List.cons.injEq]
    tauto

theorem ConstantTimeByteEq_zero (v : Nat) (hv : v < 256) :
    ConstantTimeByteEq v 0 = 1 ↔ v = 0 := by
  unfold ConstantTimeByteEq
  rw [Nat.xor_zero]
  constructor
  · intro h
    by_contra hne
    have h2 : (v + 2 ^ 32 - 1) % 2 ^ 32 / 2 ^ 31 = 1 := by exact_mod_cast h
    omega
  · rintro rfl; decide

theorem ConstantTimeCompare_eq_one_iff (x y : List Nat) (hx : ∀ a ∈ x, a < 256)
    (hy : ∀ b ∈ y, b < 256) : ConstantTimeCompare x y = 1 ↔ x = y := by
  unfold ConstantTimeCompare
  by_cases hl : x.length = y.length
  · rw [if_neg (by simpa using hl), ConstantTimeByteEq_zero _ (xorLoop_lt x y 0 (by decide)),
      xorLoop_eq_zero x y 0 hl hx hy (by decide)]
    simp
  · rw [if_pos hl]
    constructor
    · intro h; exact absurd h (by decide)
    · intro h; exact absurd (congrArg List.length h) hl

theorem credentialsPass_iff (man : Manifest) (username password : String) :
    credentialsPass man username password = true ↔
      ∃ stored, mapGet man.Users username = some stored ∧ bytes stored = bytes password := by
  unfold credentialsPass
  cases hget : mapGet man.Users username with
  | none => simp
  | some stored =>
    simp only [Option.some.injEq, exists_eq_left']
    rw [← ConstantTimeCompare_eq_one_iff _ _ (bytes_lt stored) (bytes_lt password)]
    by_cases h : ConstantTimeCompare (bytes stored) (bytes password) = 1 <;> simp [h]

/-! ## Lemmas: the inner loops of `ServeHTTP` -/

theorem protecting_iff (Matches : String → String → Bool) (urlPath : String) (paths : List String) :
    protecting Matches urlPath paths = true ↔ ∃ pp ∈ paths, Matches urlPath pp = true := by
  induction paths with
  | nil => simp [protecting]
  | cons pp rest ih =>
    by_cases h : Matches urlPath pp = true
    · simp [protecting, h]
    · simp [protecting, h, ih]

theorem foundMethod_iff (reqMethod : String) (methods : List String) :
    foundMethod reqMethod methods = true ↔ reqMethod ∈ methods := by
  induction methods with
  | nil => simp [foundMethod]
  | cons method rest ih =>
    by_cases h : method = reqMethod
    · simp [foundMethod, h]
    · have h' : ¬ reqMethod = method := fun e => h e.symm
      simp [foundMethod, h, h', ih]

theorem groupLoop_iff (value : String) (groups : List String) :
    groupLoop value groups = true ↔ value ∈ groups := by
  induction groups with
  | nil => simp [groupLoop]
  | cons group rest ih =>
    by_cases h : group = value
    · simp [groupLoop, h]
    · have h' : ¬ value = group := fun e => h e.symm
      simp [groupLoop, h, h', ih]

theorem rulesLoop_iff (reqMethod : String) (groups : List String) (rules : List Rule)
    (matched : Bool) :
    rulesLoop reqMethod groups rules matched = true ↔
      matched = true ∨ ∃ rule ∈ rules, reqMethod ∈ rule.methods ∧
        (rule.appliesToKind = "authenticated" ∨
          (rule.appliesToKind = "group" ∧ rule.appliesToValue ∈ groups)) := by
  induction rules generalizing matched with
  | nil => simp [rulesLoop]
  | cons rule rest ih =>
    rw [rulesLoop]
    by_cases hm : foundMethod reqMethod rule.methods = true
    · have hm' := (foundMethod_iff _ _).1 hm
      by_cases ha : rule.appliesToKind = "authenticated"
      · simp [hm, ha, ih, hm']
      · by_cases hg : rule.appliesToKind = "group"
        · by_cases hv : groupLoop rule.appliesToValue groups = true
          · have hv' := (groupLoop_iff _ _).1 hv
            simp [hm, hg, hv, hm', hv']
          · have hv' : ¬ rule.appliesToValue ∈ groups := fun h => hv ((groupLoop_iff _ _).2 h)
            simp [hm, hg, hv, ih, hm', hv']
        · simp [hm, ha, hg, ih]
    · have hm' : ¬ reqMethod ∈ rule.methods := fun h => hm ((foundMethod_iff _ _).2 h)
      simp [hm, ih, hm']

/-! ## Lemmas: the loop over the blocks -/

theorem mapGet_mapSet_self {β : Type} (m : GoMap β) (k : String) (v : β) :
    mapGet (mapSet m k v) k = some v := by
  induction m with
  | nil => simp [mapSet, mapGet]
  | cons e rest ih =>
    obtain ⟨k', v'⟩ := e
    by_cases h : k' = k
    · simp [mapSet, mapGet, h]
    · simp [mapSet, mapGet, h, ih]

theorem mapGet_mapSet_ne {β : Type} (m : GoMap β) (k k' : String) (v : β) (hne : k ≠ k') :
    mapGet (mapSet m k v) k' = mapGet m k' := by
  induction m with
  | nil => simp [mapSet, mapGet, hne]
  | cons e rest ih =>
    obtain ⟨k0, v0⟩ := e
    by_cases h : k0 = k
    · subst h; simp [mapSet, mapGet, hne]
    · by_cases h' : k0 = k'
      · subst h'; simp [mapSet, mapGet, h]
      · simp [mapSet, mapGet, h, h', ih]

theorem basicAuth_ne_callNext (m : middleware) (w w' : ResponseWriter) (r : Request)
    (realm : String) : basicAuth w' realm ≠ callNext m w r := by
  intro h
  have := congrArg Result.nextCalls h
  simp [basicAuth, callNext] at this

theorem configLoop_cons_pass (Matches : String → String → Bool) (m : middleware)
    (w : ResponseWriter) (r : Request) (username password : String) (c : Config)
    (rest : List Config) (h : blockPasses Matches r username password c = true) :
    configLoop Matches m w r username password (c :: rest) =
      configLoop Matches m w r username password rest := by
  unfold blockPasses at h
  rw [configLoop]
  cases hp : protecting Matches r.Path c.path
  · simp
  · cases hc : credentialsPass c.manifest username password
    · simp [hp, hc] at h
    · simp [hp, hc] at h
      simp [h]

theorem configLoop_cons_fail (Matches : String → String → Bool) (m : middleware)
    (w : ResponseWriter) (r : Request) (username password : String) (c : Config)
    (rest : List Config) (h : blockPasses Matches r username password c = false) :
    configLoop Matches m w r username password (c :: rest) =
      basicAuth w (blockRealm username password c) := by
  unfold blockPasses at h
  rw [configLoop]
  unfold blockRealm
  cases hp : protecting Matches r.Path c.path
  · simp [hp] at h
  · cases hc : credentialsPass c.manifest username password
    · simp
    · simp [hp, hc] at h
      simp [h]

theorem configLoop_append_pass (Matches : String → String → Bool) (m : middleware)
    (w : ResponseWriter) (r : Request) (username password : String) (pre rest : List Config)
    (h : ∀ b ∈ pre, blockPasses Matches r username password b = true) :
    configLoop Matches m w r username password (pre ++ rest) =
      configLoop Matches m w r username password rest := by
  induction pre with
  | nil => rfl
  | cons b pre ih =>
    rw [List.cons_append, configLoop_cons_pass _ _ _ _ _ _ _ _ (h b (List.mem_cons_self _ _))]
    exact ih (fun b' hb' => h b' (List.mem_cons_of_mem _ hb'))

theorem configLoop_all_pass (Matches : String → String → Bool) (m : middleware)
    (w : ResponseWriter) (r : Request) (username password : String) (cfg : List Config)
    (h : ∀ b ∈ cfg, blockPasses Matches r username password b = true) :
    configLoop Matches m w r username password cfg = callNext m w r := by
  have := configLoop_append_pass Matches m w r username password cfg [] h
  rw [List.append_nil] at this
  rw [this, configLoop]

theorem configLoop_first_fail (Matches : String → String → Bool) (m : middleware)
    (w : ResponseWriter) (r : Request) (username password : String)
    (pre : List Config) (c : Config) (post : List Config)
    (hpre : ∀ b ∈ pre, blockPasses Matches r username password b = true)
    (hc : blockPasses Matches r username password c = false) :
    configLoop Matches m w r username password (pre ++ c :: post) =
      basicAuth w (blockRealm username password c) := by
  rw [configLoop_append_pass _ _ _ _ _ _ _ _ hpre, configLoop_cons_fail _ _ _ _ _ _ _ _ hc]

theorem exists_first_fail (Matches : String → String → Bool) (r : Request)
    (username password : String) (cfg : List Config)
    (h : ¬ ∀ b ∈ cfg, blockPasses Matches r username password b = true) :
    ∃ pre c post, cfg = pre ++ c :: post ∧
      (∀ b ∈ pre, blockPasses Matches r username password b = true) ∧
      blockPasses Matches r username password c = false := by
  induction cfg with
  | nil => exact absurd (fun b hb => by simp at hb) h
  | cons c rest ih =>
    by_cases hc : blockPasses Matches r username password c = true
    · have hrest : ¬ ∀ b ∈ rest, blockPasses Matches r username password b = true := by
        intro hall
        apply h
        intro b hb
        rcases List.mem_cons.1 hb with rfl | hb
        · exact hc
        · exact hall b hb
      obtain ⟨pre, c', post, heq, hpre, hc'⟩ := ih hrest
      refine ⟨c :: pre, c', post, by rw [heq, List.cons_append], ?_, hc'⟩
      intro b hb
      rcases List.mem_cons.1 hb with rfl | hb
      · exact hc
      · exact hpre b hb
    · exact ⟨[], c, rest, rfl, fun b hb => by simp at hb, by simpa using hc⟩

theorem blockPasses_iff (Matches : String → String → Bool) (r : Request)
    (username password : String) (c : Config) :
    blockPasses Matches r username password c = true ↔
      ((∃ pp ∈ c.path, Matches r.Path pp = true) →
        (∃ stored, mapGet c.manifest.Users username = some stored ∧
          bytes stored = bytes password) ∧
        ∃ rule ∈ c.rules, r.Method ∈ rule.methods ∧
          (rule.appliesToKind = "authenticated" ∨
            (rule.appliesToKind = "group" ∧
              rule.appliesToValue ∈ sliceAt c.manifest.userToGroups username))) := by
  rw [← protecting_iff, ← credentialsPass_iff]
  unfold blockPasses
  by_cases hp : protecting Matches r.Path c.path = true
  · by_cases hc : credentialsPass c.manifest username password = true
    · simp [hp, hc, rulesLoop_iff]
    · simp [hp, hc]
  · simp [hp]

theorem configLoop_eq_callNext_iff (Matches : String → String → Bool) (m : middleware)
    (w : ResponseWriter) (r : Request) (username password : String) (cfg : List Config) :
    configLoop Matches m w r username password cfg = callNext m w r ↔
      ∀ b ∈ cfg, blockPasses Matches r username password b = true := by
  constructor
  · intro h
    by_contra hall
    obtain ⟨pre, c, post, heq, hpre, hc⟩ := exists_first_fail Matches r username password cfg hall
    rw [heq, configLoop_first_fail Matches m w r username password pre c post hpre hc] at h
    exact basicAuth_ne_callNext m w w r _ h
  · exact configLoop_all_pass Matches m w r username password cfg

theorem configLoop_denied_or_next (Matches : String → String → Bool) (m : middleware)
    (w : ResponseWriter) (r : Request) (username password : String) (cfg : List Config) :
    configLoop Matches m w r username password cfg = callNext m w r ∨
      ∃ realm, configLoop Matches m w r username password cfg = basicAuth w realm := by
  by_cases hall : ∀ b ∈ cfg, blockPasses Matches r username password b = true
  · exact Or.inl (configLoop_all_pass Matches m w r username password cfg hall)
  · obtain ⟨pre, c, post, heq, hpre, hc⟩ := exists_first_fail Matches r username password cfg hall
    exact Or.inr ⟨_, by rw [heq]; exact configLoop_first_fail Matches m w r username password pre c post hpre hc⟩

theorem configLoop_of_mem_fail (Matches : String → String → Bool) (m : middleware)
    (w : ResponseWriter) (r : Request) (username password : String) (cfg : List Config)
    (c : Config) (hc : c ∈ cfg) (hfail : blockPasses Matches r username password c = false) :
    ∃ realm, configLoop Matches m w r username password cfg = basicAuth w realm := by
  rcases configLoop_denied_or_next Matches m w r username password cfg with h | h
  · have := (configLoop_eq_callNext_iff Matches m w r username password cfg).1 h c hc
    rw [hfail] at this
    exact absurd this (by decide)
  · exact h

theorem configLoop_next_irrelevant (Matches : String → String → Bool) (m : middleware)
    (w : ResponseWriter) (r : Request) (username password : String) (cfg cfg' : List Config) :
    configLoop Matches { config := cfg', next := m.next } w r username password cfg =
      configLoop Matches m w r username password cfg := by
  induction cfg with
  | nil => rfl
  | cons c rest ih => simp only [configLoop, ih]

theorem configLoop_remove_pass (Matches : String → String → Bool) (m : middleware)
    (w : ResponseWriter) (r : Request) (username password : String)
    (pre : List Config) (c : Config) (post : List Config)
    (hc : blockPasses Matches r username password c = true) :
    configLoop Matches m w r username password (pre ++ c :: post) =
      configLoop Matches m w r username password (pre ++ post) := by
  induction pre with
  | nil => exact configLoop_cons_pass Matches m w r username password c post hc
  | cons b pre ih =>
    rw [List.cons_append, List.cons_append]
    cases hb : blockPasses Matches r username password b
    · rw [configLoop_cons_fail _ _ _ _ _ _ _ _ hb, configLoop_cons_fail _ _ _ _ _ _ _ _ hb]
    · rw [configLoop_cons_pass _ _ _ _ _ _ _ _ hb, configLoop_cons_pass _ _ _ _ _ _ _ _ hb, ih]

theorem basicAuth_status (w : ResponseWriter) (realm : String) :
    (basicAuth w realm).status = 401 := rfl

theorem basicAuth_nextCalls (w : ResponseWriter) (realm : String) :
    (basicAuth w realm).nextCalls = [] := rfl

theorem canonical_challenge_key :
    CanonicalMIMEHeaderKey "WWW-Authenticate" = "Www-Authenticate" := by
  decide

theorem basicAuth_header (w : ResponseWriter) (realm : String) :
    mapGet (basicAuth w realm).w.header "Www-Authenticate" =
      some ["Basic realm=\"" ++ realm ++ "\""] := by
  simp [basicAuth, headerSet, canonical_challenge_key, mapGet_mapSet_self]

theorem basicAuth_headerGet (w : ResponseWriter) (realm : String) :
    headerGet (basicAuth w realm).w.header "WWW-Authenticate" =
      "Basic realm=\"" ++ realm ++ "\"" := by
  unfold headerGet
  rw [canonical_challenge_key, basicAuth_header]

theorem basicAuth_header_frame (w : ResponseWriter) (realm : String) (k : String)
    (hk : k ≠ "Www-Authenticate") :
    mapGet (basicAuth w realm).w.header k = mapGet w.header k := by
  simp only [basicAuth, headerSet, canonical_challenge_key]
  exact mapGet_mapSet_ne w.header "Www-Authenticate" k _ (fun h => hk h.symm)

theorem ServeHTTP_of_auth (Matches : String → String → Bool) (m : middleware)
    (w : ResponseWriter) (r : Request) (username password : String)
    (hauth : r.BasicAuth = some (username, password)) :
    ServeHTTP Matches m w r = configLoop Matches m w r username password m.config := by
  unfold ServeHTTP; rw [hauth]

theorem ServeHTTP_of_no_auth (Matches : String → String → Bool) (m : middleware)
    (w : ResponseWriter) (r : Request) (hauth : r.BasicAuth = none) :
    ServeHTTP Matches m w r = basicAuth w "Please log in" := by
  unfold ServeHTTP; rw [hauth]

theorem bytes_append (s t : String) : bytes (s ++ t) = bytes s ++ bytes t := by
  simp [bytes, String.toUTF8, String.data_append, List.flatMap_append]

theorem bytes_ne_nil (s : String) (h : s ≠ "") : bytes s ≠ [] := by
  obtain ⟨cs⟩ := s
  cases cs with
  | nil => exact absurd rfl h
  | cons c cs =>
    intro hnil
    have hlen := congrArg List.length hnil
    have hpos := Char.utf8Size_pos c
    simp [bytes, String.toUTF8, List.flatMap_cons] at hlen
    omega

theorem bytes_append_ne (s t : String) (h : t ≠ "") : bytes (s ++ t) ≠ bytes s := by
  intro heq
  rw [bytes_append] at heq
  have := List.append_right_eq_self.1 heq
  exact bytes_ne_nil t h this

theorem rulesLoop_mono_insert (reqMethod : String) (groups : List String)
    (rs1 rs2 : List Rule) (rule : Rule)
    (h : rulesLoop reqMethod groups (rs1 ++ rs2) false = true) :
    rulesLoop reqMethod groups (rs1 ++ rule :: rs2) false = true := by
  rw [rulesLoop_iff] at h ⊢
  rcases h with h | ⟨x, hx, hgrant⟩
  · exact Or.inl h
  · refine Or.inr ⟨x, ?_, hgrant⟩
    rcases List.mem_append.1 hx with h1 | h2
    · exact List.mem_append.2 (Or.inl h1)
    · exact List.mem_append.2 (Or.inr (List.mem_cons_of_mem _ h2))

theorem sliceAt_mapSet (m : GoMap (List String)) (k k' : String) (v : List String) :
    sliceAt (mapSet m k v) k' = if k = k' then v else sliceAt m k' := by
  unfold sliceAt
  by_cases h : k = k'
  · subst h; simp [mapGet_mapSet_self]
  · simp [mapGet_mapSet_ne m k k' v h, h]

theorem addUsers_step (group user : String) (rest : List String) (utg : GoMap (List String)) :
    addUsers group (user :: rest) utg =
      addUsers group rest (mapSet utg user (sliceAt utg user ++ [group])) := by
  rw [addUsers]
  unfold sliceAt
  cases mapGet utg user <;> simp

theorem sliceAt_addUsers (group : String) (users : List String) (utg : GoMap (List String))
    (u : String) :
    sliceAt (addUsers group users utg) u =
      sliceAt utg u ++ List.replicate (users.count u) group := by
  induction users generalizing utg with
  | nil => simp [addUsers]
  | cons user rest ih =>
    rw [addUsers_step, ih, sliceAt_mapSet]
    by_cases h : user = u
    · subst h
      simp [List.replicate_succ, Nat.add_comm]
    · simp [h, List.count_cons]

theorem mapGet_none_of_not_mem_keys {β : Type} (m : GoMap β) (k : String)
    (h : k ∉ m.map Prod.fst) : mapGet m k = none := by
  induction m with
  | nil => rfl
  | cons e rest ih =>
    obtain ⟨k', v⟩ := e
    simp only [List.map_cons, List.mem_cons, not_or] at h
    have hne : ¬ k' = k := fun e => h.1 e.symm
    simp [mapGet, hne, ih h.2]

theorem count_sliceAt_groupsLoop (groups : GoMap (List String)) (hd : keysDistinct groups)
    (utg : GoMap (List String)) (u g : String) :
    (sliceAt (groupsLoop groups utg) u).count g =
      (sliceAt utg u).count g + (sliceAt groups g).count u := by
  induction groups generalizing utg with
  | nil => simp [groupsLoop, sliceAt, mapGet]
  | cons e rest ih =>
    obtain ⟨g0, us0⟩ := e
    have hd' : keysDistinct rest := (List.nodup_cons.1 hd).2
    have hnot : g0 ∉ rest.map Prod.fst := (List.nodup_cons.1 hd).1
    rw [groupsLoop, ih hd', sliceAt_addUsers, List.count_append]
    by_cases h : g0 = g
    · subst h
      have : sliceAt rest g0 = [] := by
        unfold sliceAt; rw [mapGet_none_of_not_mem_keys rest g0 hnot]; rfl
      rw [this]
      simp [sliceAt, mapGet, List.count_replicate_self]
    · have hcount : (List.replicate (us0.count u) g0).count g = 0 :=
        List.count_eq_zero.2 (fun hmem => h (List.eq_of_mem_replicate hmem).symm)
      rw [hcount]
      simp [sliceAt, mapGet, h]

theorem count_sliceAt_buildUserToGroups (groups : GoMap (List String))
    (hd : keysDistinct groups) (u g : String) :
    (sliceAt (buildUserToGroups groups) u).count g = (sliceAt groups g).count u := by
  unfold buildUserToGroups
  rw [count_sliceAt_groupsLoop groups hd [] u g]
  simp [sliceAt, mapGet]

theorem mapGet_addUsers_eq_none (group : String) (users : List String)
    (utg : GoMap (List String)) (u : String) :
    mapGet (addUsers group users utg) u = none ↔ mapGet utg u = none ∧ u ∉ users := by
  induction users generalizing utg with
  | nil => simp [addUsers]
  | cons user rest ih =>
    rw [addUsers_step, ih]
    by_cases h : user = u
    · subst h; simp [mapGet_mapSet_self]
    · have h' : ¬ u = user := fun e => h e.symm
      simp [mapGet_mapSet_ne _ _ _ _ h, h']

theorem mapGet_groupsLoop_eq_none (groups : GoMap (List String)) (utg : GoMap (List String))
    (u : String) :
    mapGet (groupsLoop groups utg) u = none ↔
      mapGet utg u = none ∧ ∀ e ∈ groups, u ∉ e.2 := by
  induction groups generalizing utg with
  | nil => simp [groupsLoop]
  | cons e rest ih =>
    obtain ⟨g0, us0⟩ := e
    rw [groupsLoop, ih, mapGet_addUsers_eq_none]
    simp [and_assoc]

theorem mapGet_of_mem {β : Type} (m : GoMap β) (hd : keysDistinct m) (k : String) (v : β)
    (h : (k, v) ∈ m) : mapGet m k = some v := by
  induction m with
  | nil => simp at h
  | cons e rest ih =>
    obtain ⟨k', v'⟩ := e
    have hnot : k' ∉ rest.map Prod.fst := (List.nodup_cons.1 hd).1
    rcases List.mem_cons.1 h with heq | hmem
    · cases heq; simp [mapGet]
    · have hne : ¬ k' = k := by
        intro e; subst e
        exact hnot (List.mem_map.2 ⟨(k', v), hmem, rfl⟩)
      simp [mapGet, hne, ih (List.nodup_cons.1 hd).2 hmem]

theorem mem_of_mapGet {β : Type} (m : GoMap β) (k : String) (v : β)
    (h : mapGet m k = some v) : (k, v) ∈ m := by
  induction m with
  | nil => simp [mapGet] at h
  | cons e rest ih =>
    obtain ⟨k', v'⟩ := e
    by_cases hk : k' = k
    · subst hk; simp [mapGet] at h; simp [h]
    · simp [mapGet, hk] at h; exact List.mem_cons_of_mem _ (ih h)

theorem ServeHTTP_cases (Matches : String → String → Bool) (m : middleware)
    (w : ResponseWriter) (r : Request) :
    ServeHTTP Matches m w r = callNext m w r ∨
      (r.BasicAuth = none ∧ ServeHTTP Matches m w r = basicAuth w "Please log in") ∨
      ∃ username password, r.BasicAuth = some (username, password) ∧
        (ServeHTTP Matches m w r =
            basicAuth w ("Invalid password " ++ username ++ " - " ++ password) ∨
          ServeHTTP Matches m w r = basicAuth w "Unauthorized") := by
  cases hauth : r.BasicAuth with
  | none => exact Or.inr (Or.inl ⟨rfl, ServeHTTP_of_no_auth Matches m w r hauth⟩)
  | some up =>
    obtain ⟨username, password⟩ := up
    rw [ServeHTTP_of_auth Matches m w r username password hauth]
    by_cases hall : ∀ b ∈ m.config, blockPasses Matches r username password b = true
    · exact Or.inl (configLoop_all_pass Matches m w r username password m.config hall)
    · obtain ⟨pre, c, post, heq, hpre, hc⟩ :=
        exists_first_fail Matches r username password m.config hall
      refine Or.inr (Or.inr ⟨username, password, rfl, ?_⟩)
      rw [heq, configLoop_first_fail Matches m w r username password pre c post hpre hc]
      unfold blockRealm
      cases credentialsPass c.manifest username password
      · exact Or.inl (by simp)
      · exact Or.inr (by simp)

theorem ServeHTTP_denied_of_no_call (Matches : String → String → Bool) (m : middleware)
    (w : ResponseWriter) (r : Request) (h : (ServeHTTP Matches m w r).nextCalls = []) :
    ∃ realm, ServeHTTP Matches m w r = basicAuth w realm := by
  rcases ServeHTTP_cases Matches m w r with h1 | ⟨_, h2⟩ | ⟨_, _, _, h3 | h3⟩
  · rw [h1] at h; simp [callNext] at h
  · exact ⟨_, h2⟩
  · exact ⟨_, h3⟩
  · exact ⟨_, h3⟩

theorem configLoop_replace (Matches : String → String → Bool) (m : middleware)
    (w : ResponseWriter) (r : Request) (username password : String)
    (pre : List Config) (c c' : Config) (post : List Config)
    (hpass : blockPasses Matches r username password c' = blockPasses Matches r username password c)
    (hrealm : blockRealm username password c' = blockRealm username password c) :
    configLoop Matches m w r username password (pre ++ c' :: post) =
      configLoop Matches m w r username password (pre ++ c :: post) := by
  induction pre with
  | nil =>
    simp only [List.nil_append]
    cases hc : blockPasses Matches r username password c
    · rw [configLoop_cons_fail _ _ _ _ _ _ _ _ hc,
        configLoop_cons_fail _ _ _ _ _ _ _ _ (hpass.trans hc), hrealm]
    · rw [configLoop_cons_pass _ _ _ _ _ _ _ _ hc,
        configLoop_cons_pass _ _ _ _ _ _ _ _ (hpass.trans hc)]
  | cons b pre ih =>
    rw [List.cons_append, List.cons_append]
    cases hb : blockPasses Matches r username password b
    · rw [configLoop_cons_fail _ _ _ _ _ _ _ _ hb, configLoop_cons_fail _ _ _ _ _ _ _ _ hb]
    · rw [configLoop_cons_pass _ _ _ _ _ _ _ _ hb, configLoop_cons_pass _ _ _ _ _ _ _ _ hb, ih]

theorem ServeHTTP_replace_block (Matches : String → String → Bool) (next : Handler)
    (w : ResponseWriter) (r : Request) (pre : List Config) (c c' : Config)
    (post : List Config)
    (hpass : ∀ username password,
      blockPasses Matches r username password c' = blockPasses Matches r username password c)
    (hrealm : ∀ username password,
      blockRealm username password c' = blockRealm username password c) :
    ServeHTTP Matches { config := pre ++ c' :: post, next := next } w r =
      ServeHTTP Matches { config := pre ++ c :: post, next := next } w r := by
  cases hauth : r.BasicAuth with
  | none => rw [ServeHTTP_of_no_auth _ _ w r hauth, ServeHTTP_of_no_auth _ _ w r hauth]
  | some up =>
    obtain ⟨username, password⟩ := up
    rw [ServeHTTP_of_auth _ _ w r username password hauth,
      ServeHTTP_of_auth _ _ w r username password hauth]
    show configLoop Matches _ w r username password (pre ++ c' :: post) =
      configLoop Matches _ w r username password (pre ++ c :: post)
    rw [configLoop_replace Matches _ w r username password pre c c' post
      (hpass username password) (hrealm username password)]
    exact (configLoop_next_irrelevant Matches _ w r username password _ _).trans
      (configLoop_next_irrelevant Matches
        { config := pre ++ c :: post, next := next } w r username password _ _).symm

theorem Bool_eq_of_true_iff {a b : Bool} (h : a = true ↔ b = true) : a = b := by
  cases a <;> cases b <;> simp at h ⊢

theorem rulesLoop_perm (reqMethod : String) (groups : List String) (rules rules' : List Rule)
    (matched : Bool) (hperm : rules.Perm rules') :
    rulesLoop reqMethod groups rules' matched = rulesLoop reqMethod groups rules matched := by
  apply Bool_eq_of_true_iff
  rw [rulesLoop_iff, rulesLoop_iff]
  constructor
  · rintro (h | ⟨x, hx, hg⟩)
    · exact Or.inl h
    · exact Or.inr ⟨x, hperm.mem_iff.2 hx, hg⟩
  · rintro (h | ⟨x, hx, hg⟩)
    · exact Or.inl h
    · exact Or.inr ⟨x, hperm.mem_iff.1 hx, hg⟩

theorem blockPasses_rules_congr (Matches : String → String → Bool) (r : Request)
    (username password : String) (c : Config) (rules' : List Rule)
    (h : rulesLoop r.Method (sliceAt c.manifest.userToGroups username) rules' false =
      rulesLoop r.Method (sliceAt c.manifest.userToGroups username) c.rules false) :
    blockPasses Matches r username password { c with rules := rules' } =
      blockPasses Matches r username password c := by
  unfold blockPasses
  simp only [h]

theorem rulesLoopEarlyExit_true (reqMethod : String) (groups : List String)
    (rules : List Rule) : rulesLoopEarlyExit reqMethod groups rules true = true := by
  induction rules with
  | nil => rfl
  | cons rule rest ih =>
    rw [rulesLoopEarlyExit]
    split
    · exact ih
    · split
      · rfl
      · split
        · split
          · rfl
          · exact ih
        · exact ih

theorem rulesLoop_true (reqMethod : String) (groups : List String) (rules : List Rule) :
    rulesLoop reqMethod groups rules true = true :=
  (rulesLoop_iff reqMethod groups rules true).2 (Or.inl rfl)

theorem rulesLoop_insert_no_method (reqMethod : String) (groups : List String)
    (rs1 rs2 : List Rule) (rule : Rule) (matched : Bool) (hm : rule.methods = []) :
    rulesLoop reqMethod groups (rs1 ++ rule :: rs2) matched =
      rulesLoop reqMethod groups (rs1 ++ rs2) matched := by
  apply Bool_eq_of_true_iff
  rw [rulesLoop_iff, rulesLoop_iff]
  constructor
  · rintro (h | ⟨x, hx, hg⟩)
    · exact Or.inl h
    · rcases List.mem_append.1 hx with h1 | h2
      · exact Or.inr ⟨x, List.mem_append.2 (Or.inl h1), hg⟩
      · rcases List.mem_cons.1 h2 with rfl | h3
        · rw [hm] at hg; simp at hg
        · exact Or.inr ⟨x, List.mem_append.2 (Or.inr h3), hg⟩
  · rintro (h | ⟨x, hx, hg⟩)
    · exact Or.inl h
    · refine Or.inr ⟨x, ?_, hg⟩
      rcases List.mem_append.1 hx with h1 | h2
      · exact List.mem_append.2 (Or.inl h1)
      · exact List.mem_append.2 (Or.inr (List.mem_cons_of_mem _ h2))

theorem ServeHTTP_eq_callNext_iff (Matches : String → String → Bool) (m : middleware)
    (w : ResponseWriter) (r : Request) :
    ServeHTTP Matches m w r = callNext m w r ↔
      ∃ username password, r.BasicAuth = some (username, password) ∧
        ∀ b ∈ m.config, blockPasses Matches r username password b = true := by
  cases hauth : r.BasicAuth with
  | none =>
    rw [ServeHTTP_of_no_auth Matches m w r hauth]
    constructor
    · intro h; exact absurd h (basicAuth_ne_callNext m w w r _)
    · rintro ⟨_, _, h, _⟩; cases h
  | some up =>
    obtain ⟨username, password⟩ := up
    rw [ServeHTTP_of_auth Matches m w r username password hauth, configLoop_eq_callNext_iff]
    constructor
    · intro h; exact ⟨username, password, rfl, h⟩
    · rintro ⟨u, p, h, hall⟩; cases h; exact hall

theorem credentialsPass_users_congr (man man' : Manifest) (username password : String)
    (h : man'.Users = man.Users) :
    credentialsPass man' username password = credentialsPass man username password := by
  unfold credentialsPass; rw [h]

theorem rulesLoop_groups_perm (reqMethod : String) (groups groups' : List String)
    (rules : List Rule) (matched : Bool) (hperm : groups.Perm groups') :
    rulesLoop reqMethod groups' rules matched = rulesLoop reqMethod groups rules matched := by
  apply Bool_eq_of_true_iff
  rw [rulesLoop_iff, rulesLoop_iff]
  constructor
  · rintro (h | ⟨x, hx, hm, hk | ⟨hk, hv⟩⟩)
    · exact Or.inl h
    · exact Or.inr ⟨x, hx, hm, Or.inl hk⟩
    · exact Or.inr ⟨x, hx, hm, Or.inr ⟨hk, hperm.mem_iff.2 hv⟩⟩
  · rintro (h | ⟨x, hx, hm, hk | ⟨hk, hv⟩⟩)
    · exact Or.inl h
    · exact Or.inr ⟨x, hx, hm, Or.inl hk⟩
    · exact Or.inr ⟨x, hx, hm, Or.inr ⟨hk, hperm.mem_iff.1 hv⟩⟩

theorem blockPasses_sameUpToGroupOrder (Matches : String → String → Bool) (r : Request)
    (username password : String) (c c' : Config) (h : sameUpToGroupOrder c c') :
    blockPasses Matches r username password c' = blockPasses Matches r username password c := by
  obtain ⟨hpath, hrules, husers, hgroups⟩ := h
  unfold blockPasses
  rw [hpath, hrules, credentialsPass_users_congr _ _ _ _ husers,
    rulesLoop_groups_perm r.Method _ _ c.rules false (hgroups username)]

theorem blockRealm_sameUpToGroupOrder (username password : String) (c c' : Config)
    (h : sameUpToGroupOrder c c') :
    blockRealm username password c' = blockRealm username password c := by
  unfold blockRealm
  rw [credentialsPass_users_congr _ _ _ _ h.2.2.1]

theorem configLoop_sameUpToGroupOrder (Matches : String → String → Bool) (m : middleware)
    (w : ResponseWriter) (r : Request) (username password : String) (cfg cfg' : List Config)
    (h : List.Forall₂ sameUpToGroupOrder cfg cfg') :
    configLoop Matches m w r username password cfg' =
      configLoop Matches m w r username password cfg := by
  induction h with
  | nil => rfl
  | @cons c c' rest rest' hc _ ih =>
    have hpass := blockPasses_sameUpToGroupOrder Matches r username password c c' hc
    have hrealm := blockRealm_sameUpToGroupOrder username password c c' hc
    cases hb : blockPasses Matches r username password c
    · rw [configLoop_cons_fail _ _ _ _ _ _ _ _ hb,
        configLoop_cons_fail _ _ _ _ _ _ _ _ (hpass.trans hb), hrealm]
    · rw [configLoop_cons_pass _ _ _ _ _ _ _ _ hb,
        configLoop_cons_pass _ _ _ _ _ _ _ _ (hpass.trans hb), ih]

theorem keysDistinct_perm {β : Type} (m m' : GoMap β) (hperm : m.Perm m')
    (hd : keysDistinct m) : keysDistinct m' :=
  ((hperm.map Prod.fst).nodup_iff).1 hd

theorem mapGet_perm {β : Type} (m m' : GoMap β) (hperm : m.Perm m') (hd : keysDistinct m)
    (k : String) : mapGet m' k = mapGet m k := by
  have hd' := keysDistinct_perm m m' hperm hd
  cases h : mapGet m k with
  | some v => exact mapGet_of_mem m' hd' k v (hperm.mem_iff.1 (mem_of_mapGet m k v h))
  | none =>
    cases h' : mapGet m' k with
    | none => rfl
    | some v =>
      have := mapGet_of_mem m hd k v (hperm.mem_iff.2 (mem_of_mapGet m' k v h'))
      rw [h] at this; cases this

theorem buildUserToGroups_perm (groups groups' : GoMap (List String))
    (hperm : groups.Perm groups') (hd : keysDistinct groups) (u : String) :
    (sliceAt (buildUserToGroups groups) u).Perm (sliceAt (buildUserToGroups groups') u) := by
  rw [List.perm_iff_count]
  intro g
  rw [count_sliceAt_buildUserToGroups groups hd u g,
    count_sliceAt_buildUserToGroups groups' (keysDistinct_perm groups groups' hperm hd) u g]
  unfold sliceAt
  rw [mapGet_perm groups groups' hperm hd g]

theorem credentialsPass_eq_false_iff (man : Manifest) (username password : String) :
    credentialsPass man username password = false ↔
      (mapGet man.Users username = none ∨
        ∃ stored, mapGet man.Users username = some stored ∧ bytes stored ≠ bytes password) := by
  constructor
  · intro hfalse
    cases hget : mapGet man.Users username with
    | none => exact Or.inl rfl
    | some stored =>
      refine Or.inr ⟨stored, rfl, ?_⟩
      intro hbytes
      have := (credentialsPass_iff man username password).2 ⟨stored, hget, hbytes⟩
      rw [hfalse] at this
      exact absurd this (by decide)
  · intro h
    cases hcred : credentialsPass man username password
    · rfl
    · exfalso
      obtain ⟨stored, hget, hbytes⟩ := (credentialsPass_iff man username password).1 hcred
      rcases h with hnone | ⟨stored', hget', hne⟩
      · rw [hnone] at hget; cases hget
      · rw [hget] at hget'; cases hget'; exact hne hbytes

/-! ## The claims -/

/-- C1: for a request that carries credentials, `ServeHTTP` hands the request to the next
handler (one call of `m.next`, with the writer and the request as received, whose writer,
status and error are the result) exactly when every block with a path matching the request
path (i) knows the username with a stored password byte-equal to the supplied one and (ii)
has a rule that lists the request method and is of kind "authenticated" or of kind "group"
with its group in the block's `userToGroups[username]`; otherwise it answers 401 with a
`WWW-Authenticate` challenge and does not call the next handler. -/
theorem serveHTTP_next_iff_every_matching_block_grants (Matches : String → String → Bool)
    (m : middleware) (w : ResponseWriter) (r : Request) (username password : String)
    (hauth : r.BasicAuth = some (username, password)) :
    (((ServeHTTP Matches m w r).nextCalls = [(w, r)] ∧
        (ServeHTTP Matches m w r).w = (m.next w r).1 ∧
        (ServeHTTP Matches m w r).status = (m.next w r).2.1 ∧
        (ServeHTTP Matches m w r).err = (m.next w r).2.2) ↔
      ∀ c ∈ m.config, (∃ pp ∈ c.path, Matches r.Path pp = true) →
        (∃ stored, mapGet c.manifest.Users username = some stored ∧
          bytes stored = bytes password) ∧
        ∃ rule ∈ c.rules, r.Method ∈ rule.methods ∧
          (rule.appliesToKind = "authenticated" ∨
            (rule.appliesToKind = "group" ∧
              rule.appliesToValue ∈ sliceAt c.manifest.userToGroups username))) ∧
    (¬ (∀ c ∈ m.config, (∃ pp ∈ c.path, Matches r.Path pp = true) →
        (∃ stored, mapGet c.manifest.Users username = some stored ∧
          bytes stored = bytes password) ∧
        ∃ rule ∈ c.rules, r.Method ∈ rule.methods ∧
          (rule.appliesToKind = "authenticated" ∨
            (rule.appliesToKind = "group" ∧
              rule.appliesToValue ∈ sliceAt c.manifest.userToGroups username))) →
      (ServeHTTP Matches m w r).status = 401 ∧ (ServeHTTP Matches m w r).err = none ∧
        (ServeHTTP Matches m w r).nextCalls = [] ∧
        ∃ realm, ServeHTTP Matches m w r = basicAuth w realm ∧
          headerGet (ServeHTTP Matches m w r).w.header "WWW-Authenticate" =
            "Basic realm=\"" ++ realm ++ "\"") := by
  have hiff : ServeHTTP Matches m w r = callNext m w r ↔
      ∀ c ∈ m.config, (∃ pp ∈ c.path, Matches r.Path pp = true) →
        (∃ stored, mapGet c.manifest.Users username = some stored ∧
          bytes stored = bytes password) ∧
        ∃ rule ∈ c.rules, r.Method ∈ rule.methods ∧
          (rule.appliesToKind = "authenticated" ∨
            (rule.appliesToKind = "group" ∧
              rule.appliesToValue ∈ sliceAt c.manifest.userToGroups username)) := by
    rw [ServeHTTP_of_auth Matches m w r username password hauth, configLoop_eq_callNext_iff]
    exact forall_congr' fun c => forall_congr' fun _ =>
      blockPasses_iff Matches r username password c
  have hcases : ServeHTTP Matches m w r = callNext m w r ∨
      ∃ realm, ServeHTTP Matches m w r = basicAuth w realm := by
    rw [ServeHTTP_of_auth Matches m w r username password hauth]
    exact configLoop_denied_or_next Matches m w r username password m.config
  refine ⟨⟨?_, ?_⟩, ?_⟩
  · rintro ⟨hcalls, _, _, _⟩
    rcases hcases with h | ⟨realm, h⟩
    · exact hiff.1 h
    · rw [h] at hcalls; exact absurd hcalls (by simp [basicAuth])
  · intro hcond
    rw [hiff.2 hcond]
    exact ⟨rfl, rfl, rfl, rfl⟩
  · intro hcond
    rcases hcases with h | ⟨realm, h⟩
    · exact absurd (hiff.1 h) hcond
    · rw [h]
      exact ⟨rfl, rfl, rfl, realm, rfl, (by simp [basicAuth, headerGet, headerSet, canonical_challenge_key, mapGet_mapSet_self])⟩

/-- Witness of C1 on the first scenario: `GET /secret` as `alice:pw1` reaches the next
handler, so every matching block grants. -/
theorem serveHTTP_next_iff_every_matching_block_grants_witness :
    goodRequest.BasicAuth = some ("alice", "pw1") ∧
      ∀ c ∈ sampleMiddleware.config, (∃ pp ∈ c.path, exactMatch goodRequest.Path pp = true) →
        (∃ stored, mapGet c.manifest.Users "alice" = some stored ∧
          bytes stored = bytes "pw1") ∧
        ∃ rule ∈ c.rules, goodRequest.Method ∈ rule.methods ∧
          (rule.appliesToKind = "authenticated" ∨
            (rule.appliesToKind = "group" ∧
              rule.appliesToValue ∈ sliceAt c.manifest.userToGroups "alice")) :=
  ⟨rfl, (serveHTTP_next_iff_every_matching_block_grants exactMatch sampleMiddleware emptyWriter
    goodRequest "alice" "pw1" rfl).1.1 ⟨by decide, by decide, by decide, by decide⟩⟩

/-- C2, counterexample: `GET /public` without credentials, a path that no block of the
sample configuration matches, is answered 401 and the next handler is not called. -/
theorem no_credentials_unprotected_path_denied :
    protecting exactMatch anonymousPublicRequest.Path sampleConfig.path = false ∧
      ServeHTTP exactMatch sampleMiddleware emptyWriter anonymousPublicRequest =
        basicAuth emptyWriter "Please log in" ∧
      (ServeHTTP exactMatch sampleMiddleware emptyWriter anonymousPublicRequest).status = 401 ∧
      (ServeHTTP exactMatch sampleMiddleware emptyWriter anonymousPublicRequest).nextCalls = [] := by
  decide

/-- C2, amended: when the path of a request matches no path of any block, a request that
carries basic-auth credentials is handed to the next handler, whatever the credentials are
(one call of `m.next`, with the writer and the request as received, whose writer, status
and error are the result); a request without credentials is answered 401 with the
challenge "Please log in" and the next handler is not called. -/
theorem unprotected_path_with_credentials_allowed (Matches : String → String → Bool)
    (m : middleware) (w : ResponseWriter) (r : Request)
    (hnone : ∀ c ∈ m.config, ∀ pp ∈ c.path, Matches r.Path pp = false) :
    (∀ username password, r.BasicAuth = some (username, password) →
      (ServeHTTP Matches m w r).nextCalls = [(w, r)] ∧
        (ServeHTTP Matches m w r).w = (m.next w r).1 ∧
        (ServeHTTP Matches m w r).status = (m.next w r).2.1 ∧
        (ServeHTTP Matches m w r).err = (m.next w r).2.2) ∧
    (r.BasicAuth = none →
      (ServeHTTP Matches m w r).status = 401 ∧ (ServeHTTP Matches m w r).err = none ∧
        (ServeHTTP Matches m w r).nextCalls = [] ∧
        headerGet (ServeHTTP Matches m w r).w.header "WWW-Authenticate" =
          "Basic realm=\"Please log in\"") := by
  refine ⟨?_, ?_⟩
  · intro username password hauth
    have h : ServeHTTP Matches m w r = callNext m w r := by
      rw [ServeHTTP_of_auth Matches m w r username password hauth]
      apply configLoop_all_pass
      intro c hc
      rw [blockPasses_iff]
      rintro ⟨pp, hpp, hmatch⟩
      rw [hnone c hc pp hpp] at hmatch
      exact absurd hmatch (by decide)
    rw [h]
    exact ⟨rfl, rfl, rfl, rfl⟩
  · intro hauth
    rw [ServeHTTP_of_no_auth Matches m w r hauth]
    exact ⟨rfl, rfl, rfl, (by simp [basicAuth, headerGet, headerSet, canonical_challenge_key, mapGet_mapSet_self])⟩

/-- Witness of the amended C2: `GET /public` as `mallory:guess` reaches the next handler,
which answers 200. -/
theorem unprotected_path_with_credentials_allowed_witness :
    (∀ c ∈ sampleMiddleware.config, ∀ pp ∈ c.path,
        exactMatch strangerPublicRequest.Path pp = false) ∧
      strangerPublicRequest.BasicAuth = some ("mallory", "guess") ∧
      (ServeHTTP exactMatch sampleMiddleware emptyWriter strangerPublicRequest).nextCalls =
        [(emptyWriter, strangerPublicRequest)] ∧
      (ServeHTTP exactMatch sampleMiddleware emptyWriter strangerPublicRequest).status = 200 :=
  ⟨by decide, rfl,
    ((unprotected_path_with_credentials_allowed exactMatch sampleMiddleware emptyWriter
      strangerPublicRequest (by decide)).1 "mallory" "guess" rfl).1,
    ((unprotected_path_with_credentials_allowed exactMatch sampleMiddleware emptyWriter
      strangerPublicRequest (by decide)).1 "mallory" "guess" rfl).2.2.1⟩

/-- C3: a request without a basic-auth header is answered by `basicAuth` with the realm
"Please log in": status 401, nil error, the challenge header set, no call of the next
handler, and the same result whatever the list of blocks (the empty one included) and the
path matcher are. -/
theorem no_credentials_denied_directly (Matches : String → String → Bool) (m : middleware)
    (w : ResponseWriter) (r : Request) (hauth : r.BasicAuth = none) :
    ServeHTTP Matches m w r = basicAuth w "Please log in" ∧
      (ServeHTTP Matches m w r).status = 401 ∧
      (ServeHTTP Matches m w r).err = none ∧
      headerGet (ServeHTTP Matches m w r).w.header "WWW-Authenticate" =
        "Basic realm=\"Please log in\"" ∧
      mapGet (ServeHTTP Matches m w r).w.header "Www-Authenticate" =
        some ["Basic realm=\"Please log in\""] ∧
      (ServeHTTP Matches m w r).nextCalls = [] ∧
      ∀ (Matches' : String → String → Bool) (cfg : List Config),
        ServeHTTP Matches' { config := cfg, next := m.next } w r = ServeHTTP Matches m w r := by
  have h := ServeHTTP_of_no_auth Matches m w r hauth
  refine ⟨h, ?_, ?_, ?_, ?_, ?_, ?_⟩
  · rw [h]; rfl
  · rw [h]; rfl
  · rw [h]; exact (by simp [basicAuth, headerGet, headerSet, canonical_challenge_key, mapGet_mapSet_self])
  · rw [h]; exact (by simp [basicAuth, headerSet, canonical_challenge_key, mapGet_mapSet_self])
  · rw [h]; rfl
  · intro Matches' cfg
    rw [h, ServeHTTP_of_no_auth Matches' _ w r hauth]

/-- Witness of C3 on `GET /public` without credentials. -/
theorem no_credentials_denied_directly_witness :
    anonymousPublicRequest.BasicAuth = none ∧
      ServeHTTP exactMatch sampleMiddleware emptyWriter anonymousPublicRequest =
        basicAuth emptyWriter "Please log in" :=
  ⟨rfl, (no_credentials_denied_directly exactMatch sampleMiddleware emptyWriter
    anonymousPublicRequest rfl).1⟩

/-- C4: denial is fail-fast. For a request with credentials, (a) if the next handler is not
called then some block is the first, in declared order, that matches the path and rejects
(every block before it is skipped or passed); and (b) for any such first rejecting block
the answer is status 401, without a call of the next handler, with the challenge header
`Basic realm="Invalid password <username> - <password>"` when its credential check fails
and `Basic realm="Unauthorized"` when the check passes and no rule grants, whatever blocks
follow it: replacing the blocks after it by any other list changes nothing. -/
theorem denial_decided_by_first_rejecting_block (Matches : String → String → Bool)
    (m : middleware) (w : ResponseWriter) (r : Request) (username password : String)
    (hauth : r.BasicAuth = some (username, password)) :
    ((ServeHTTP Matches m w r).nextCalls = [] →
      ∃ pre c post, m.config = pre ++ c :: post ∧
        (∀ b ∈ pre, blockPasses Matches r username password b = true) ∧
        protecting Matches r.Path c.path = true ∧
        blockPasses Matches r username password c = false) ∧
    (∀ pre c post, m.config = pre ++ c :: post →
      (∀ b ∈ pre, blockPasses Matches r username password b = true) →
      protecting Matches r.Path c.path = true →
      (credentialsPass c.manifest username password = false →
        ∀ post',
          ServeHTTP Matches { config := pre ++ c :: post', next := m.next } w r =
            basicAuth w ("Invalid password " ++ username ++ " - " ++ password) ∧
          (ServeHTTP Matches { config := pre ++ c :: post', next := m.next } w r).status = 401 ∧
          (ServeHTTP Matches { config := pre ++ c :: post', next := m.next } w r).nextCalls = [] ∧
          headerGet (ServeHTTP Matches { config := pre ++ c :: post', next := m.next } w r).w.header
              "WWW-Authenticate" =
            "Basic realm=\"" ++ ("Invalid password " ++ username ++ " - " ++ password) ++ "\"") ∧
      (credentialsPass c.manifest username password = true →
        rulesLoop r.Method (sliceAt c.manifest.userToGroups username) c.rules false = false →
        ∀ post',
          ServeHTTP Matches { config := pre ++ c :: post', next := m.next } w r =
            basicAuth w "Unauthorized" ∧
          (ServeHTTP Matches { config := pre ++ c :: post', next := m.next } w r).status = 401 ∧
          (ServeHTTP Matches { config := pre ++ c :: post', next := m.next } w r).nextCalls = [] ∧
          headerGet (ServeHTTP Matches { config := pre ++ c :: post', next := m.next } w r).w.header
              "WWW-Authenticate" =
            "Basic realm=\"Unauthorized\"")) := by
  refine ⟨?_, ?_⟩
  · intro hnext
    rw [ServeHTTP_of_auth Matches m w r username password hauth] at hnext
    have hall : ¬ ∀ b ∈ m.config, blockPasses Matches r username password b = true := by
      intro hall
      rw [configLoop_all_pass Matches m w r username password m.config hall] at hnext
      simp [callNext] at hnext
    obtain ⟨pre, c, post, heq, hpre, hc⟩ :=
      exists_first_fail Matches r username password m.config hall
    refine ⟨pre, c, post, heq, hpre, ?_, hc⟩
    cases hp : protecting Matches r.Path c.path
    · simp [blockPasses, hp] at hc
    · rfl
  · intro pre c post _ hpre hprot
    refine ⟨?_, ?_⟩
    · intro hcred post'
      have hfail : blockPasses Matches r username password c = false := by
        simp [blockPasses, hprot, hcred]
      have h : ServeHTTP Matches { config := pre ++ c :: post', next := m.next } w r =
          basicAuth w ("Invalid password " ++ username ++ " - " ++ password) := by
        rw [ServeHTTP_of_auth Matches _ w r username password hauth,
          configLoop_first_fail Matches _ w r username password pre c post' hpre hfail]
        simp [blockRealm, hcred]
      rw [h]
      exact ⟨rfl, rfl, rfl, (by simp [basicAuth, headerGet, headerSet, canonical_challenge_key, mapGet_mapSet_self])⟩
    · intro hcred hrules post'
      have hfail : blockPasses Matches r username password c = false := by
        simp [blockPasses, hprot, hcred, hrules]
      have h : ServeHTTP Matches { config := pre ++ c :: post', next := m.next } w r =
          basicAuth w "Unauthorized" := by
        rw [ServeHTTP_of_auth Matches _ w r username password hauth,
          configLoop_first_fail Matches _ w r username password pre c post' hpre hfail]
        simp [blockRealm, hcred]
      rw [h]
      exact ⟨rfl, rfl, rfl, (by simp [basicAuth, headerGet, headerSet, canonical_challenge_key, mapGet_mapSet_self])⟩

/-- Witness of C4: the sample block rejects `alice:wrong`, and whatever blocks follow it the
challenge header carries the realm of the failed credential check. -/
theorem denial_decided_by_first_rejecting_block_witness :
    wrongPasswordRequest.BasicAuth = some ("alice", "wrong") ∧
      ∀ post', headerGet (ServeHTTP exactMatch
          { config := [] ++ sampleConfig :: post', next := sampleMiddleware.next }
          emptyWriter wrongPasswordRequest).w.header "WWW-Authenticate" =
        "Basic realm=\"" ++ ("Invalid password " ++ "alice" ++ " - " ++ "wrong") ++ "\"" :=
  ⟨rfl, fun post' => (((denial_decided_by_first_rejecting_block exactMatch sampleMiddleware
    emptyWriter wrongPasswordRequest "alice" "wrong" rfl).2 [] sampleConfig [] rfl (by decide)
    (by decide)).1 (by decide) post').2.2.2⟩

/-- C5: for a block of the configuration that matches the request path, the credential
check passes exactly when the username is a key of the manifest's `Users` and the stored
password has the same bytes as the supplied one; when it does not pass the request is
answered 401 without calling the next handler; and a supplied password that is a proper
extension or a proper prefix of the stored one does not pass. -/
theorem credential_check_iff_known_user_and_equal_bytes (Matches : String → String → Bool)
    (m : middleware) (w : ResponseWriter) (r : Request) (username password : String)
    (c : Config) (hauth : r.BasicAuth = some (username, password)) (hc : c ∈ m.config)
    (hprot : ∃ pp ∈ c.path, Matches r.Path pp = true) :
    (credentialsPass c.manifest username password = true ↔
      ∃ stored, mapGet c.manifest.Users username = some stored ∧
        bytes stored = bytes password) ∧
    (credentialsPass c.manifest username password = false →
      (ServeHTTP Matches m w r).status = 401 ∧ (ServeHTTP Matches m w r).nextCalls = [] ∧
        ∃ realm, ServeHTTP Matches m w r = basicAuth w realm) ∧
    (∀ stored extra, mapGet c.manifest.Users username = some stored → extra ≠ "" →
      (password = stored ++ extra ∨ stored = password ++ extra) →
      credentialsPass c.manifest username password = false) := by
  refine ⟨credentialsPass_iff _ _ _, ?_, ?_⟩
  · intro hcred
    have hfail : blockPasses Matches r username password c = false := by
      have hp := (protecting_iff Matches r.Path c.path).2 hprot
      simp [blockPasses, hp, hcred]
    obtain ⟨realm, h⟩ := configLoop_of_mem_fail Matches m w r username password m.config c hc hfail
    rw [ServeHTTP_of_auth Matches m w r username password hauth, h]
    exact ⟨rfl, rfl, realm, rfl⟩
  · intro stored extra hget hextra hor
    cases hcred : credentialsPass c.manifest username password
    · rfl
    · exfalso
      obtain ⟨stored', hget', hbytes⟩ := (credentialsPass_iff _ _ _).1 hcred
      rw [hget] at hget'
      cases hget'
      rcases hor with h | h
      · rw [h] at hbytes
        exact bytes_append_ne stored extra hextra hbytes.symm
      · rw [h] at hbytes
        exact bytes_append_ne password extra hextra hbytes

/-- Witness of C5 on the sample block and `alice:wrong`: the check fails and the answer is
401. -/
theorem credential_check_iff_known_user_and_equal_bytes_witness :
    wrongPasswordRequest.BasicAuth = some ("alice", "wrong") ∧
      sampleConfig ∈ sampleMiddleware.config ∧
      (∃ pp ∈ sampleConfig.path, exactMatch wrongPasswordRequest.Path pp = true) ∧
      (ServeHTTP exactMatch sampleMiddleware emptyWriter wrongPasswordRequest).status = 401 :=
  ⟨rfl, by decide, by decide,
    ((credential_check_iff_known_user_and_equal_bytes exactMatch sampleMiddleware emptyWriter
      wrongPasswordRequest "alice" "wrong" sampleConfig rfl (by decide) (by decide)).2.1
      (by decide)).1⟩

/-- C6: the index built at manifest load is the exact transpose of `Groups`. For a groups
map (one binding per group name), a user `u` and a group `g`: `u` occurs in `groups[g]`
exactly when `g` occurs in `userToGroups[u]`, and `u` has no entry in `userToGroups`
exactly when `u` occurs in no group. -/
theorem userToGroups_is_transpose_of_groups (groups : GoMap (List String))
    (hd : keysDistinct groups) (u g : String) :
    (u ∈ sliceAt groups g ↔ g ∈ sliceAt (buildUserToGroups groups) u) ∧
    (mapGet (buildUserToGroups groups) u = none ↔ ∀ g', u ∉ sliceAt groups g') := by
  refine ⟨?_, ?_⟩
  · rw [← List.count_pos_iff, ← List.count_pos_iff,
      count_sliceAt_buildUserToGroups groups hd u g]
  · unfold buildUserToGroups
    rw [mapGet_groupsLoop_eq_none]
    constructor
    · rintro ⟨_, hall⟩ g' hmem
      unfold sliceAt at hmem
      cases hget : mapGet groups g' with
      | none => rw [hget] at hmem; simp at hmem
      | some us =>
        rw [hget] at hmem
        exact hall (g', us) (mem_of_mapGet groups g' us hget) hmem
    · intro hall
      refine ⟨rfl, ?_⟩
      rintro ⟨g', us⟩ hmem hu
      apply hall g'
      unfold sliceAt
      rw [mapGet_of_mem groups hd g' us hmem]
      exact hu

/-- Witness of C6 on the groups of the sample manifest. -/
theorem userToGroups_is_transpose_of_groups_witness :
    keysDistinct sampleManifest.Groups ∧
      ("alice" ∈ sliceAt sampleManifest.Groups "admins" ↔
        "admins" ∈ sliceAt (buildUserToGroups sampleManifest.Groups) "alice") :=
  ⟨by decide,
    (userToGroups_is_transpose_of_groups sampleManifest.Groups (by decide) "alice" "admins").1⟩

/-- C7, counterexample: with `alice` listed twice under `admins`, the entry of `alice` in
the index built by `parseBlock` holds `admins` twice. -/
theorem duplicate_user_duplicates_group_entry :
    keysDistinct [("admins", ["alice", "alice"])] ∧
      sliceAt (buildUserToGroups [("admins", ["alice", "alice"])]) "alice" =
        ["admins", "admins"] ∧
      ¬ (sliceAt (buildUserToGroups [("admins", ["alice", "alice"])]) "alice").count "admins" ≤ 1 := by
  decide

/-- C7, amended: for a groups map (one binding per group name), a group name occurs in a
user's `userToGroups` entry exactly as many times as the username is listed under that
group; so it occurs at most once when the username is listed at most once there. -/
theorem group_entry_count_eq_listing_count (groups : GoMap (List String))
    (hd : keysDistinct groups) (u g : String) :
    (sliceAt (buildUserToGroups groups) u).count g = (sliceAt groups g).count u ∧
    ((sliceAt groups g).count u ≤ 1 → (sliceAt (buildUserToGroups groups) u).count g ≤ 1) := by
  have h := count_sliceAt_buildUserToGroups groups hd u g
  exact ⟨h, fun hle => h ▸ hle⟩

/-- Witness of the amended C7 on the groups of the sample manifest. -/
theorem group_entry_count_eq_listing_count_witness :
    keysDistinct sampleManifest.Groups ∧
      (sliceAt (buildUserToGroups sampleManifest.Groups) "alice").count "admins" =
        (sliceAt sampleManifest.Groups "admins").count "alice" :=
  ⟨by decide,
    (group_entry_count_eq_listing_count sampleManifest.Groups (by decide) "alice" "admins").1⟩

/-- C8: when some block of the configuration has a path matching the request path and an
empty rule list, the request is answered 401 through `basicAuth` and the next handler is
not called, whatever the method is and whether or not credentials are supplied or valid;
with credentials that pass this block's check, the block itself does not pass. -/
theorem block_without_rules_denies (Matches : String → String → Bool) (m : middleware)
    (w : ResponseWriter) (r : Request) (c : Config) (hc : c ∈ m.config)
    (hprot : ∃ pp ∈ c.path, Matches r.Path pp = true) (hrules : c.rules = []) :
    ((ServeHTTP Matches m w r).status = 401 ∧ (ServeHTTP Matches m w r).nextCalls = [] ∧
      ∃ realm, ServeHTTP Matches m w r = basicAuth w realm) ∧
    ∀ username password, credentialsPass c.manifest username password = true →
      blockPasses Matches r username password c = false := by
  have hp := (protecting_iff Matches r.Path c.path).2 hprot
  have hfail : ∀ username password, blockPasses Matches r username password c = false := by
    intro username password
    cases hcred : credentialsPass c.manifest username password
    · simp [blockPasses, hp, hcred]
    · simp [blockPasses, hp, hcred, hrules, rulesLoop]
  refine ⟨?_, fun username password _ => hfail username password⟩
  cases hauth : r.BasicAuth with
  | none =>
    rw [ServeHTTP_of_no_auth Matches m w r hauth]
    exact ⟨rfl, rfl, _, rfl⟩
  | some up =>
    obtain ⟨username, password⟩ := up
    obtain ⟨realm, h⟩ := configLoop_of_mem_fail Matches m w r username password m.config c hc
      (hfail username password)
    rw [ServeHTTP_of_auth Matches m w r username password hauth, h]
    exact ⟨rfl, rfl, realm, rfl⟩

/-- Witness of C8: the sample block stripped of its rules denies `GET /secret` as
`alice:pw1`, credentials that are valid for its manifest. -/
theorem block_without_rules_denies_witness :
    ({ sampleConfig with rules := [] } : Config) ∈ [{ sampleConfig with rules := [] }] ∧
      (∃ pp ∈ ({ sampleConfig with rules := [] } : Config).path,
        exactMatch goodRequest.Path pp = true) ∧
      credentialsPass sampleConfig.manifest "alice" "pw1" = true ∧
      (ServeHTTP exactMatch { config := [{ sampleConfig with rules := [] }], next := sampleNext }
        emptyWriter goodRequest).status = 401 :=
  ⟨by decide, by decide, by decide,
    (block_without_rules_denies exactMatch
      { config := [{ sampleConfig with rules := [] }], next := sampleNext } emptyWriter
      goodRequest { sampleConfig with rules := [] } (by decide) (by decide) rfl).1.1⟩

/-- C9: a block whose path list is empty is always skipped: inserting it at any position of
the block list, or removing it, leaves the whole result of `ServeHTTP` (status, error,
writer with its headers, calls of the next handler) unchanged, whatever its manifest and
rules are. -/
theorem block_without_paths_is_skipped (Matches : String → String → Bool) (next : Handler)
    (w : ResponseWriter) (r : Request) (pre : List Config) (c : Config) (post : List Config)
    (hpath : c.path = []) :
    ServeHTTP Matches { config := pre ++ c :: post, next := next } w r =
      ServeHTTP Matches { config := pre ++ post, next := next } w r := by
  cases hauth : r.BasicAuth with
  | none => rw [ServeHTTP_of_no_auth _ _ w r hauth, ServeHTTP_of_no_auth _ _ w r hauth]
  | some up =>
    obtain ⟨username, password⟩ := up
    have hc : blockPasses Matches r username password c = true := by
      simp [blockPasses, hpath, protecting]
    rw [ServeHTTP_of_auth _ _ w r username password hauth,
      ServeHTTP_of_auth _ _ w r username password hauth]
    show configLoop Matches _ w r username password (pre ++ c :: post) =
      configLoop Matches _ w r username password (pre ++ post)
    rw [configLoop_remove_pass Matches _ w r username password pre c post hc]
    exact (configLoop_next_irrelevant Matches _ w r username password _ _).trans
      (configLoop_next_irrelevant Matches
        { config := pre ++ post, next := next } w r username password _ _).symm

/-- Witness of C9: the sample block stripped of its paths, put in front of the sample
block, changes nothing for `GET /secret` as `alice:wrong`. -/
theorem block_without_paths_is_skipped_witness :
    ({ sampleConfig with path := [], rules := [] } : Config).path = [] ∧
      ServeHTTP exactMatch
        { config := [] ++ { sampleConfig with path := [], rules := [] } :: [sampleConfig],
          next := sampleNext } emptyWriter wrongPasswordRequest =
      ServeHTTP exactMatch { config := [] ++ [sampleConfig], next := sampleNext }
        emptyWriter wrongPasswordRequest :=
  ⟨rfl, block_without_paths_is_skipped exactMatch sampleNext emptyWriter wrongPasswordRequest
    [] { sampleConfig with path := [], rules := [] } [sampleConfig] rfl⟩

/-- C10: rule evaluation is monotonic. If the request is handed to the next handler, it
still is after inserting any rule, of any kind, value and method list, at any position of
the rule list of any block of the configuration. -/
theorem adding_a_rule_keeps_allowed (Matches : String → String → Bool) (next : Handler)
    (w : ResponseWriter) (r : Request) (pre : List Config) (c : Config) (post : List Config)
    (rs1 rs2 : List Rule) (rule : Rule) (hrules : c.rules = rs1 ++ rs2)
    (hallowed : ServeHTTP Matches { config := pre ++ c :: post, next := next } w r =
      callNext { config := pre ++ c :: post, next := next } w r) :
    ServeHTTP Matches
        { config := pre ++ { c with rules := rs1 ++ rule :: rs2 } :: post, next := next } w r =
      callNext
        { config := pre ++ { c with rules := rs1 ++ rule :: rs2 } :: post, next := next } w r := by
  cases hauth : r.BasicAuth with
  | none =>
    rw [ServeHTTP_of_no_auth _ _ w r hauth] at hallowed
    exact absurd hallowed (basicAuth_ne_callNext _ w w r _)
  | some up =>
    obtain ⟨username, password⟩ := up
    rw [ServeHTTP_of_auth _ _ w r username password hauth] at hallowed ⊢
    rw [configLoop_eq_callNext_iff] at hallowed ⊢
    intro b hb
    rcases List.mem_append.1 hb with h1 | h2
    · exact hallowed b (List.mem_append.2 (Or.inl h1))
    · rcases List.mem_cons.1 h2 with rfl | h3
      · have hcpass := hallowed c (List.mem_append.2 (Or.inr (List.mem_cons_self _ _)))
        unfold blockPasses at hcpass ⊢
        show (if protecting Matches r.Path c.path = false then true
          else if credentialsPass c.manifest username password = false then false
          else rulesLoop r.Method (sliceAt c.manifest.userToGroups username)
            (rs1 ++ rule :: rs2) false) = true
        cases hp : protecting Matches r.Path c.path
        · simp
        · cases hcred : credentialsPass c.manifest username password
          · simp [hp, hcred] at hcpass
          · simp [hp, hcred, hrules] at hcpass
            simp [rulesLoop_mono_insert _ _ _ _ rule hcpass]
      · exact hallowed b (List.mem_append.2 (Or.inr (List.mem_cons_of_mem _ h3)))

/-- Witness of C10: `GET /secret` as `alice:pw1` is allowed by the sample block and still is
after a rule for another group and method is put in front of its rule. -/
theorem adding_a_rule_keeps_allowed_witness :
    sampleConfig.rules = [] ++ sampleConfig.rules ∧
      ServeHTTP exactMatch { config := [] ++ sampleConfig :: [], next := sampleNext }
        emptyWriter goodRequest =
      callNext { config := [] ++ sampleConfig :: [], next := sampleNext }
        emptyWriter goodRequest ∧
      ServeHTTP exactMatch
        { config := [] ++ { sampleConfig with rules := [] ++
            { appliesToKind := "group", appliesToValue := "staff", methods := ["POST"] } ::
              sampleConfig.rules } :: [],
          next := sampleNext } emptyWriter goodRequest =
      callNext
        { config := [] ++ { sampleConfig with rules := [] ++
            { appliesToKind := "group", appliesToValue := "staff", methods := ["POST"] } ::
              sampleConfig.rules } :: [],
          next := sampleNext } emptyWriter goodRequest :=
  ⟨rfl, by decide,
    adding_a_rule_keeps_allowed exactMatch sampleNext emptyWriter goodRequest [] sampleConfig []
      [] sampleConfig.rules
      { appliesToKind := "group", appliesToValue := "staff", methods := ["POST"] } rfl
      (by decide)⟩

/-- C11, counterexample: four requests to the sample block, all denied, get four different
`WWW-Authenticate` values; the one for a wrong password repeats the supplied username and
password, so two wrong passwords give two different headers. -/
theorem denial_header_differs_between_denied_requests :
    (ServeHTTP exactMatch sampleMiddleware emptyWriter anonymousSecretRequest).nextCalls = [] ∧
      (ServeHTTP exactMatch sampleMiddleware emptyWriter wrongPasswordRequest).nextCalls = [] ∧
      (ServeHTTP exactMatch sampleMiddleware emptyWriter otherWrongPasswordRequest).nextCalls = [] ∧
      (ServeHTTP exactMatch sampleMiddleware emptyWriter postRequest).nextCalls = [] ∧
      headerGet (ServeHTTP exactMatch sampleMiddleware emptyWriter anonymousSecretRequest).w.header
        "WWW-Authenticate" = "Basic realm=\"Please log in\"" ∧
      headerGet (ServeHTTP exactMatch sampleMiddleware emptyWriter wrongPasswordRequest).w.header
        "WWW-Authenticate" = "Basic realm=\"Invalid password alice - wrong\"" ∧
      headerGet (ServeHTTP exactMatch sampleMiddleware emptyWriter otherWrongPasswordRequest).w.header
        "WWW-Authenticate" = "Basic realm=\"Invalid password alice - other\"" ∧
      headerGet (ServeHTTP exactMatch sampleMiddleware emptyWriter postRequest).w.header
        "WWW-Authenticate" = "Basic realm=\"Unauthorized\"" ∧
      headerGet (ServeHTTP exactMatch sampleMiddleware emptyWriter wrongPasswordRequest).w.header
          "WWW-Authenticate" ≠
        headerGet (ServeHTTP exactMatch sampleMiddleware emptyWriter otherWrongPasswordRequest).w.header
          "WWW-Authenticate" := by
  decide

/-- C11, amended: any two denied requests, under any block lists, get the same status (401)
and the same nil error. The `WWW-Authenticate` value of a denied request follows the check
that failed: `Basic realm="Please log in"` when it has no credentials; otherwise, at the
first block that matches the path and rejects, it is
`Basic realm="Invalid password <username> - <password>"`, with the supplied username and
password, when the user is unknown or the stored password differs (alike in both cases),
and `Basic realm="Unauthorized"` when the credentials pass and no rule grants. -/
theorem denied_same_status_header_by_failed_check (Matches₁ Matches₂ : String → String → Bool)
    (m₁ m₂ : middleware) (w₁ w₂ : ResponseWriter) (r₁ r₂ : Request)
    (h₁ : (ServeHTTP Matches₁ m₁ w₁ r₁).nextCalls = [])
    (h₂ : (ServeHTTP Matches₂ m₂ w₂ r₂).nextCalls = []) :
    ((ServeHTTP Matches₁ m₁ w₁ r₁).status = 401 ∧ (ServeHTTP Matches₂ m₂ w₂ r₂).status = 401 ∧
      (ServeHTTP Matches₁ m₁ w₁ r₁).err = none ∧ (ServeHTTP Matches₂ m₂ w₂ r₂).err = none) ∧
    (r₁.BasicAuth = none →
      headerGet (ServeHTTP Matches₁ m₁ w₁ r₁).w.header "WWW-Authenticate" =
        "Basic realm=\"Please log in\"") ∧
    (∀ username password, r₁.BasicAuth = some (username, password) →
      ∃ pre c post, m₁.config = pre ++ c :: post ∧
        (∀ b ∈ pre, blockPasses Matches₁ r₁ username password b = true) ∧
        protecting Matches₁ r₁.Path c.path = true ∧
        (((mapGet c.manifest.Users username = none ∨
              ∃ stored, mapGet c.manifest.Users username = some stored ∧
                bytes stored ≠ bytes password) ∧
            headerGet (ServeHTTP Matches₁ m₁ w₁ r₁).w.header "WWW-Authenticate" =
              "Basic realm=\"" ++ ("Invalid password " ++ username ++ " - " ++ password)
                ++ "\"") ∨
          ((∃ stored, mapGet c.manifest.Users username = some stored ∧
              bytes stored = bytes password) ∧
            rulesLoop r₁.Method (sliceAt c.manifest.userToGroups username) c.rules false =
              false ∧
            headerGet (ServeHTTP Matches₁ m₁ w₁ r₁).w.header "WWW-Authenticate" =
              "Basic realm=\"Unauthorized\""))) := by
  obtain ⟨realm₁, e₁⟩ := ServeHTTP_denied_of_no_call Matches₁ m₁ w₁ r₁ h₁
  obtain ⟨realm₂, e₂⟩ := ServeHTTP_denied_of_no_call Matches₂ m₂ w₂ r₂ h₂
  refine ⟨⟨by rw [e₁]; rfl, by rw [e₂]; rfl, by rw [e₁]; rfl, by rw [e₂]; rfl⟩, ?_, ?_⟩
  · intro hnone
    rw [ServeHTTP_of_no_auth Matches₁ m₁ w₁ r₁ hnone]
    exact (by simp [basicAuth, headerGet, headerSet, canonical_challenge_key, mapGet_mapSet_self])
  · intro username password hauth
    rw [ServeHTTP_of_auth Matches₁ m₁ w₁ r₁ username password hauth] at h₁ ⊢
    have hall : ¬ ∀ b ∈ m₁.config, blockPasses Matches₁ r₁ username password b = true := by
      intro hall
      rw [configLoop_all_pass Matches₁ m₁ w₁ r₁ username password m₁.config hall] at h₁
      simp [callNext] at h₁
    obtain ⟨pre, c, post, heq, hpre, hc⟩ :=
      exists_first_fail Matches₁ r₁ username password m₁.config hall
    have hprot : protecting Matches₁ r₁.Path c.path = true := by
      cases hp : protecting Matches₁ r₁.Path c.path
      · simp [blockPasses, hp] at hc
      · rfl
    refine ⟨pre, c, post, heq, hpre, hprot, ?_⟩
    rw [heq, configLoop_first_fail Matches₁ m₁ w₁ r₁ username password pre c post hpre hc]
    cases hcred : credentialsPass c.manifest username password
    · refine Or.inl ⟨(credentialsPass_eq_false_iff _ _ _).1 hcred, ?_⟩
      simp [basicAuth, headerGet, headerSet, canonical_challenge_key, mapGet_mapSet_self,
        blockRealm, hcred]
    · have hrules : rulesLoop r₁.Method (sliceAt c.manifest.userToGroups username)
          c.rules false = false := by
        simpa [blockPasses, hprot, hcred] using hc
      refine Or.inr ⟨(credentialsPass_iff _ _ _).1 hcred, hrules, ?_⟩
      simp [basicAuth, headerGet, headerSet, canonical_challenge_key, mapGet_mapSet_self,
        blockRealm, hcred]

/-- Witness of the amended C11: a request with a wrong password and one without
credentials, both denied by the sample block, get the same status, and the first gets the
challenge of a failed credential check. -/
theorem denied_same_status_header_by_failed_check_witness :
    (ServeHTTP exactMatch sampleMiddleware emptyWriter wrongPasswordRequest).nextCalls = [] ∧
      (ServeHTTP exactMatch sampleMiddleware emptyWriter anonymousSecretRequest).nextCalls = [] ∧
      (ServeHTTP exactMatch sampleMiddleware emptyWriter wrongPasswordRequest).status = 401 ∧
      (ServeHTTP exactMatch sampleMiddleware emptyWriter anonymousSecretRequest).status = 401 :=
  ⟨by decide, by decide,
    (denied_same_status_header_by_failed_check exactMatch exactMatch sampleMiddleware
      sampleMiddleware emptyWriter emptyWriter wrongPasswordRequest anonymousSecretRequest
      (by decide) (by decide)).1.1,
    (denied_same_status_header_by_failed_check exactMatch exactMatch sampleMiddleware
      sampleMiddleware emptyWriter emptyWriter wrongPasswordRequest anonymousSecretRequest
      (by decide) (by decide)).1.2.1⟩

/-- C12: whenever `ServeHTTP` does not end in the call of the next handler, it returns
status 401 with a nil error, the response header `WWW-Authenticate` (stored under its
canonical key `Www-Authenticate`) holds the single value `Basic realm="<text>"`, no other
header and nothing of the body is changed by it, and the next handler is not invoked. -/
theorem denied_outcome_is_401_with_challenge (Matches : String → String → Bool)
    (m : middleware) (w : ResponseWriter) (r : Request)
    (hdenied : ServeHTTP Matches m w r ≠ callNext m w r) :
    (ServeHTTP Matches m w r).status = 401 ∧
      (ServeHTTP Matches m w r).err = none ∧
      (∃ text,
        mapGet (ServeHTTP Matches m w r).w.header "Www-Authenticate" =
          some ["Basic realm=\"" ++ text ++ "\""] ∧
        headerGet (ServeHTTP Matches m w r).w.header "WWW-Authenticate" =
          "Basic realm=\"" ++ text ++ "\"") ∧
      (∀ k, k ≠ "Www-Authenticate" →
        mapGet (ServeHTTP Matches m w r).w.header k = mapGet w.header k) ∧
      (ServeHTTP Matches m w r).w.body = w.body ∧
      (ServeHTTP Matches m w r).nextCalls = [] := by
  have hshape : ∃ realm, ServeHTTP Matches m w r = basicAuth w realm := by
    rcases ServeHTTP_cases Matches m w r with e | ⟨_, e⟩ | ⟨_, _, _, e | e⟩
    · exact absurd e hdenied
    · exact ⟨_, e⟩
    · exact ⟨_, e⟩
    · exact ⟨_, e⟩
  obtain ⟨realm, e⟩ := hshape
  rw [e]
  exact ⟨rfl, rfl, ⟨realm, (by simp [basicAuth, headerSet, canonical_challenge_key, mapGet_mapSet_self]), (by simp [basicAuth, headerGet, headerSet, canonical_challenge_key, mapGet_mapSet_self])⟩,
    fun k hk => by
      simp only [basicAuth, headerSet, canonical_challenge_key]
      exact mapGet_mapSet_ne w.header "Www-Authenticate" k _ (fun h => hk h.symm), rfl, rfl⟩

/-- Witness of C12: `POST /secret` as `alice:pw1`, denied by the sample block for want of a
rule, is answered 401. -/
theorem denied_outcome_is_401_with_challenge_witness :
    ServeHTTP exactMatch sampleMiddleware emptyWriter postRequest ≠
        callNext sampleMiddleware emptyWriter postRequest ∧
      (ServeHTTP exactMatch sampleMiddleware emptyWriter postRequest).status = 401 :=
  ⟨by decide,
    (denied_outcome_is_401_with_challenge exactMatch sampleMiddleware emptyWriter postRequest
      (by decide)).1⟩

/-- C13: whenever `ServeHTTP` invokes the next handler, it invokes it once, with the
writer exactly as it was when `ServeHTTP` was entered (no header and no body written) and
with the request unmodified, and the writer, status and error that `ServeHTTP` leaves are
exactly those of the next handler. -/
theorem allowed_outcome_is_the_next_handlers (Matches : String → String → Bool)
    (m : middleware) (w : ResponseWriter) (r : Request)
    (hallowed : (ServeHTTP Matches m w r).nextCalls ≠ []) :
    (ServeHTTP Matches m w r).nextCalls = [(w, r)] ∧
      (ServeHTTP Matches m w r).w = (m.next w r).1 ∧
      (ServeHTTP Matches m w r).status = (m.next w r).2.1 ∧
      (ServeHTTP Matches m w r).err = (m.next w r).2.2 := by
  rcases ServeHTTP_cases Matches m w r with e | ⟨_, e⟩ | ⟨_, _, _, e | e⟩
  · rw [e]; exact ⟨rfl, rfl, rfl, rfl⟩
  · rw [e] at hallowed; exact absurd rfl hallowed
  · rw [e] at hallowed; exact absurd rfl hallowed
  · rw [e] at hallowed; exact absurd rfl hallowed

/-- Witness of C13: `GET /secret` as `alice:pw1` reaches the sample next handler with the
fresh writer, and the result is that handler's. -/
theorem allowed_outcome_is_the_next_handlers_witness :
    (ServeHTTP exactMatch sampleMiddleware emptyWriter goodRequest).nextCalls ≠ [] ∧
      (ServeHTTP exactMatch sampleMiddleware emptyWriter goodRequest).nextCalls =
        [(emptyWriter, goodRequest)] ∧
      (ServeHTTP exactMatch sampleMiddleware emptyWriter goodRequest).status = 200 :=
  ⟨by decide,
    (allowed_outcome_is_the_next_handlers exactMatch sampleMiddleware emptyWriter goodRequest
      (by decide)).1,
    (allowed_outcome_is_the_next_handlers exactMatch sampleMiddleware emptyWriter goodRequest
      (by decide)).2.2.1⟩

/-- C14: the result of the rule scan does not depend on the order of the rules. For a block
whose rules are replaced by any permutation of them, the scan gives the same `matched`
flag for every method, group list and starting flag, and `ServeHTTP` gives the same result
for every request, wherever the block stands in the configuration. -/
theorem permuting_rules_changes_nothing (Matches : String → String → Bool) (next : Handler)
    (w : ResponseWriter) (r : Request) (pre : List Config) (c : Config) (post : List Config)
    (rules' : List Rule) (hperm : c.rules.Perm rules') :
    (∀ reqMethod groups matched,
      rulesLoop reqMethod groups rules' matched = rulesLoop reqMethod groups c.rules matched) ∧
    ServeHTTP Matches { config := pre ++ { c with rules := rules' } :: post, next := next } w r =
      ServeHTTP Matches { config := pre ++ c :: post, next := next } w r := by
  have hscan : ∀ reqMethod groups matched,
      rulesLoop reqMethod groups rules' matched = rulesLoop reqMethod groups c.rules matched :=
    fun reqMethod groups matched => rulesLoop_perm reqMethod groups c.rules rules' matched hperm
  refine ⟨hscan, ?_⟩
  apply ServeHTTP_replace_block
  · intro username password
    exact blockPasses_rules_congr Matches r username password c rules' (hscan _ _ _)
  · intro username password
    rfl

/-- Witness of C14: swapping the two rules of the block over `loneUserManifest` changes
nothing for `GET /secret` as `bob:pw2`. -/
theorem permuting_rules_changes_nothing_witness :
    loneUserConfig.rules.Perm [authenticatedGet, adminsGet] ∧
      ServeHTTP exactMatch
        { config := [] ++ { loneUserConfig with rules := [authenticatedGet, adminsGet] } :: [],
          next := sampleNext } emptyWriter bobRequest =
      ServeHTTP exactMatch { config := [] ++ loneUserConfig :: [], next := sampleNext }
        emptyWriter bobRequest :=
  ⟨List.Perm.swap authenticatedGet adminsGet [],
    (permuting_rules_changes_nothing exactMatch sampleNext emptyWriter bobRequest []
      loneUserConfig [] [authenticatedGet, adminsGet]
      (List.Perm.swap authenticatedGet adminsGet [])).2⟩

/-- C15: the rule scan of the source, where the `break` of the "authenticated" case leaves
only the `switch` and the scan goes on, computes the same `matched` flag as the variant
that leaves the whole scan at the first matching "authenticated" rule, for every method,
group list, rule list and starting flag. -/
theorem rulesLoop_eq_rulesLoopEarlyExit (reqMethod : String) (groups : List String)
    (rules : List Rule) (matched : Bool) :
    rulesLoop reqMethod groups rules matched =
      rulesLoopEarlyExit reqMethod groups rules matched := by
  induction rules generalizing matched with
  | nil => rfl
  | cons rule rest ih =>
    rw [rulesLoop, rulesLoopEarlyExit]
    split
    · exact ih matched
    · split
      · exact rulesLoop_true reqMethod groups rest
      · split
        · split
          · rfl
          · exact ih matched
        · exact ih matched

/-- C16: a rule whose method list is empty never matches. Inserting such a rule at any
position of a rule list, or removing it, leaves the `matched` flag unchanged for every
group list and starting flag; and when a block of the configuration matches the request
path and all its rules have empty method lists, the request is answered 401 and the next
handler is not called. -/
theorem rule_without_methods_never_matches (Matches : String → String → Bool)
    (m : middleware) (w : ResponseWriter) (r : Request) :
    (∀ (groups : List String) (rs1 rs2 : List Rule) (rule : Rule) (matched : Bool),
      rule.methods = [] →
      rulesLoop r.Method groups (rs1 ++ rule :: rs2) matched =
        rulesLoop r.Method groups (rs1 ++ rs2) matched) ∧
    (∀ c ∈ m.config, (∃ pp ∈ c.path, Matches r.Path pp = true) →
      (∀ rule ∈ c.rules, rule.methods = []) →
      (ServeHTTP Matches m w r).status = 401 ∧ (ServeHTTP Matches m w r).nextCalls = [] ∧
        ∃ realm, ServeHTTP Matches m w r = basicAuth w realm) := by
  refine ⟨fun groups rs1 rs2 rule matched hm =>
    rulesLoop_insert_no_method r.Method groups rs1 rs2 rule matched hm, ?_⟩
  intro c hc hprot hempty
  have hp := (protecting_iff Matches r.Path c.path).2 hprot
  have hscan : ∀ groups, rulesLoop r.Method groups c.rules false = false := by
    intro groups
    cases hs : rulesLoop r.Method groups c.rules false
    · rfl
    · exfalso
      rcases (rulesLoop_iff _ _ _ _).1 hs with h | ⟨x, hx, hmem, _⟩
      · exact absurd h (by decide)
      · rw [hempty x hx] at hmem; simp at hmem
  have hfail : ∀ username password, blockPasses Matches r username password c = false := by
    intro username password
    cases hcred : credentialsPass c.manifest username password
    · simp [blockPasses, hp, hcred]
    · simp [blockPasses, hp, hcred, hscan]
  cases hauth : r.BasicAuth with
  | none =>
    rw [ServeHTTP_of_no_auth Matches m w r hauth]
    exact ⟨rfl, rfl, _, rfl⟩
  | some up =>
    obtain ⟨username, password⟩ := up
    obtain ⟨realm, h⟩ := configLoop_of_mem_fail Matches m w r username password m.config c hc
      (hfail username password)
    rw [ServeHTTP_of_auth Matches m w r username password hauth, h]
    exact ⟨rfl, rfl, realm, rfl⟩

/-- Witness of C16: the sample block with the single rule `group staff` without methods
denies `GET /secret` as `alice:pw1`, and putting that rule in front of the sample rule
leaves the scan's flag as it was. -/
theorem rule_without_methods_never_matches_witness :
    staffNoMethod.methods = [] ∧
      rulesLoop goodRequest.Method ["admins"] ([] ++ staffNoMethod :: [adminsGet]) false =
        rulesLoop goodRequest.Method ["admins"] ([] ++ [adminsGet]) false ∧
      (ServeHTTP exactMatch
        { config := [{ sampleConfig with rules := [staffNoMethod] }], next := sampleNext }
        emptyWriter goodRequest).status = 401 :=
  ⟨rfl,
    (rule_without_methods_never_matches exactMatch
      { config := [{ sampleConfig with rules := [staffNoMethod] }], next := sampleNext }
      emptyWriter goodRequest).1 ["admins"] [] [adminsGet] staffNoMethod false rfl,
    ((rule_without_methods_never_matches exactMatch
      { config := [{ sampleConfig with rules := [staffNoMethod] }], next := sampleNext }
      emptyWriter goodRequest).2 { sampleConfig with rules := [staffNoMethod] }
      (by decide) (by decide) (by decide)).1⟩

/-- C17: for a manifest indexed as `parseBlock` does and a username listed under no group,
the group lookup gives the empty list; so, on a block that matches the path and whose
credential check the request passes, no group value is ever found among the user's groups,
and the block lets the request through exactly when one of its rules is of kind
"authenticated" and lists the request method. -/
theorem user_in_no_group_needs_authenticated_rule (Matches : String → String → Bool)
    (r : Request) (username password : String) (c : Config)
    (hbuilt : c.manifest.userToGroups = buildUserToGroups c.manifest.Groups)
    (hno : ∀ e ∈ c.manifest.Groups, username ∉ e.2)
    (hprot : ∃ pp ∈ c.path, Matches r.Path pp = true)
    (hcred : credentialsPass c.manifest username password = true) :
    sliceAt c.manifest.userToGroups username = [] ∧
    (∀ value, groupLoop value (sliceAt c.manifest.userToGroups username) = false) ∧
    (blockPasses Matches r username password c = true ↔
      ∃ rule ∈ c.rules, r.Method ∈ rule.methods ∧ rule.appliesToKind = "authenticated") ∧
    (∀ (next : Handler) (w : ResponseWriter), r.BasicAuth = some (username, password) →
      (ServeHTTP Matches { config := [c], next := next } w r =
          callNext { config := [c], next := next } w r ↔
        ∃ rule ∈ c.rules, r.Method ∈ rule.methods ∧ rule.appliesToKind = "authenticated")) := by
  have hempty : sliceAt c.manifest.userToGroups username = [] := by
    unfold sliceAt
    rw [hbuilt]
    unfold buildUserToGroups
    rw [(mapGet_groupsLoop_eq_none c.manifest.Groups [] username).2 ⟨rfl, hno⟩]
    rfl
  have hp := (protecting_iff Matches r.Path c.path).2 hprot
  have hblock : blockPasses Matches r username password c = true ↔
      ∃ rule ∈ c.rules, r.Method ∈ rule.methods ∧ rule.appliesToKind = "authenticated" := by
    unfold blockPasses
    simp only [hp, hcred, hempty, Bool.true_eq_false, if_false]
    rw [rulesLoop_iff]
    simp
  refine ⟨hempty, ?_, hblock, ?_⟩
  · intro value
    rw [hempty]; rfl
  · intro next w hauth
    rw [ServeHTTP_of_auth _ _ w r username password hauth, configLoop_eq_callNext_iff]
    simp only [List.mem_singleton, forall_eq]
    exact hblock

/-- Witness of C17: `bob`, who has a password in `loneUserManifest` and is in no group, is
let through `GET /secret` by the rule `authenticated GET`. -/
theorem user_in_no_group_needs_authenticated_rule_witness :
    loneUserConfig.manifest.userToGroups = buildUserToGroups loneUserConfig.manifest.Groups ∧
      (∀ e ∈ loneUserConfig.manifest.Groups, "bob" ∉ e.2) ∧
      (∃ pp ∈ loneUserConfig.path, exactMatch bobRequest.Path pp = true) ∧
      credentialsPass loneUserConfig.manifest "bob" "pw2" = true ∧
      sliceAt loneUserConfig.manifest.userToGroups "bob" = [] ∧
      ∃ rule ∈ loneUserConfig.rules,
        bobRequest.Method ∈ rule.methods ∧ rule.appliesToKind = "authenticated" :=
  ⟨rfl, by decide, by decide, by decide,
    (user_in_no_group_needs_authenticated_rule exactMatch bobRequest "bob" "pw2" loneUserConfig
      rfl (by decide) (by decide) (by decide)).1,
    ((user_in_no_group_needs_authenticated_rule exactMatch bobRequest "bob" "pw2" loneUserConfig
      rfl (by decide) (by decide) (by decide)).2.2.2 sampleNext emptyWriter rfl).1 (by decide)⟩

/-- C18: the result of `ServeHTTP` does not depend on the order of the groups inside the
`userToGroups` entries. If each block of a configuration is replaced by one with the same
paths, rules and users and with every user's group list permuted, `ServeHTTP` gives the
same result for every request; and two visiting orders of the same `Groups` map give
indexes whose entries are permutations of each other. -/
theorem group_order_in_index_is_irrelevant (Matches : String → String → Bool)
    (next : Handler) (w : ResponseWriter) (r : Request) (cfg cfg' : List Config)
    (h : List.Forall₂ sameUpToGroupOrder cfg cfg') :
    ServeHTTP Matches { config := cfg', next := next } w r =
      ServeHTTP Matches { config := cfg, next := next } w r ∧
    (∀ groups groups' : GoMap (List String), keysDistinct groups → groups.Perm groups' →
      ∀ u, (sliceAt (buildUserToGroups groups) u).Perm
        (sliceAt (buildUserToGroups groups') u)) := by
  refine ⟨?_, fun groups groups' hd hperm u => buildUserToGroups_perm groups groups' hperm hd u⟩
  cases hauth : r.BasicAuth with
  | none => rw [ServeHTTP_of_no_auth _ _ w r hauth, ServeHTTP_of_no_auth _ _ w r hauth]
  | some up =>
    obtain ⟨username, password⟩ := up
    rw [ServeHTTP_of_auth _ _ w r username password hauth,
      ServeHTTP_of_auth _ _ w r username password hauth]
    show configLoop Matches _ w r username password cfg' =
      configLoop Matches _ w r username password cfg
    rw [configLoop_sameUpToGroupOrder Matches _ w r username password cfg cfg' h]
    exact (configLoop_next_irrelevant Matches _ w r username password _ _).trans
      (configLoop_next_irrelevant Matches
        { config := cfg, next := next } w r username password _ _).symm

/-- Witness of C18: with the groups of `alice` held as `[admins, staff]` or as
`[staff, admins]`, `GET /secret` as `alice:pw1` gets the same result. -/
theorem group_order_in_index_is_irrelevant_witness :
    List.Forall₂ sameUpToGroupOrder
        [{ sampleConfig with manifest := twoGroupsManifest }]
        [{ sampleConfig with manifest := twoGroupsManifestSwapped }] ∧
      ServeHTTP exactMatch
        { config := [{ sampleConfig with manifest := twoGroupsManifestSwapped }],
          next := sampleNext } emptyWriter goodRequest =
      ServeHTTP exactMatch
        { config := [{ sampleConfig with manifest := twoGroupsManifest }],
          next := sampleNext } emptyWriter goodRequest :=
  have hrel : List.Forall₂ sameUpToGroupOrder
      [{ sampleConfig with manifest := twoGroupsManifest }]
      [{ sampleConfig with manifest := twoGroupsManifestSwapped }] :=
    List.Forall₂.cons ⟨rfl, rfl, rfl, fun u => by
      by_cases hu : "alice" = u
      · subst hu; exact List.Perm.swap "staff" "admins" []
      · simp [sliceAt, mapGet, twoGroupsManifest, twoGroupsManifestSwapped, hu]⟩
      List.Forall₂.nil
  ⟨hrel, (group_order_in_index_is_irrelevant exactMatch sampleNext emptyWriter goodRequest
    _ _ hrel).1⟩

/-- C19: when no block has a path matching the request path, in particular when there is
no block at all, a request that carries a basic-auth header is handed to the next handler
whatever the username and the password are (one call of `m.next`, with the writer and the
request as received, whose writer, status and error are the result): no manifest is
consulted. -/
theorem credentials_unchecked_without_matching_block (Matches : String → String → Bool)
    (m : middleware) (w : ResponseWriter) (r : Request)
    (hnone : ∀ c ∈ m.config, protecting Matches r.Path c.path = false) :
    (∀ username password,
      (ServeHTTP Matches m w { r with BasicAuth := some (username, password) }).nextCalls =
          [(w, { r with BasicAuth := some (username, password) })] ∧
        (ServeHTTP Matches m w { r with BasicAuth := some (username, password) }).w =
          (m.next w { r with BasicAuth := some (username, password) }).1 ∧
        (ServeHTTP Matches m w { r with BasicAuth := some (username, password) }).status =
          (m.next w { r with BasicAuth := some (username, password) }).2.1 ∧
        (ServeHTTP Matches m w { r with BasicAuth := some (username, password) }).err =
          (m.next w { r with BasicAuth := some (username, password) }).2.2) ∧
    (∀ (next : Handler) (username password : String),
      (ServeHTTP Matches { config := [], next := next } w
          { r with BasicAuth := some (username, password) }).nextCalls =
          [(w, { r with BasicAuth := some (username, password) })] ∧
        (ServeHTTP Matches { config := [], next := next } w
          { r with BasicAuth := some (username, password) }).w =
          (next w { r with BasicAuth := some (username, password) }).1 ∧
        (ServeHTTP Matches { config := [], next := next } w
          { r with BasicAuth := some (username, password) }).status =
          (next w { r with BasicAuth := some (username, password) }).2.1 ∧
        (ServeHTTP Matches { config := [], next := next } w
          { r with BasicAuth := some (username, password) }).err =
          (next w { r with BasicAuth := some (username, password) }).2.2) := by
  refine ⟨?_, ?_⟩
  · intro username password
    have h : ServeHTTP Matches m w { r with BasicAuth := some (username, password) } =
        callNext m w { r with BasicAuth := some (username, password) } := by
      rw [ServeHTTP_of_auth Matches m w _ username password rfl]
      apply configLoop_all_pass
      intro c hc
      have := hnone c hc
      simp [blockPasses, this]
    rw [h]
    exact ⟨rfl, rfl, rfl, rfl⟩
  · intro next username password
    exact ⟨rfl, rfl, rfl, rfl⟩

/-- Witness of C19: `GET /public` as `mallory:guess`, a user of no manifest, reaches the next
handler behind the sample block, which answers 200. -/
theorem credentials_unchecked_without_matching_block_witness :
    (∀ c ∈ sampleMiddleware.config,
        protecting exactMatch strangerPublicRequest.Path c.path = false) ∧
      (ServeHTTP exactMatch sampleMiddleware emptyWriter
          { strangerPublicRequest with BasicAuth := some ("mallory", "guess") }).nextCalls =
        [(emptyWriter, { strangerPublicRequest with BasicAuth := some ("mallory", "guess") })] ∧
      (ServeHTTP exactMatch sampleMiddleware emptyWriter
          { strangerPublicRequest with BasicAuth := some ("mallory", "guess") }).status = 200 :=
  ⟨by decide,
    ((credentials_unchecked_without_matching_block exactMatch sampleMiddleware emptyWriter
      strangerPublicRequest (by decide)).1 "mallory" "guess").1,
    ((credentials_unchecked_without_matching_block exactMatch sampleMiddleware emptyWriter
      strangerPublicRequest (by decide)).1 "mallory" "guess").2.2.1⟩

/-- C20: adding a block can only restrict access. If `ServeHTTP` denies a request under a
list of blocks, it denies it under the list with one more block inserted at any position;
and a request handed to the next handler under the longer list is handed to it under the
shorter one. -/
theorem adding_a_block_only_restricts (Matches : String → String → Bool) (next : Handler)
    (w : ResponseWriter) (r : Request) (pre : List Config) (c : Config) (post : List Config) :
    ((∃ realm, ServeHTTP Matches { config := pre ++ post, next := next } w r =
        basicAuth w realm) →
      ∃ realm, ServeHTTP Matches { config := pre ++ c :: post, next := next } w r =
        basicAuth w realm) ∧
    (ServeHTTP Matches { config := pre ++ c :: post, next := next } w r =
        callNext { config := pre ++ c :: post, next := next } w r →
      ServeHTTP Matches { config := pre ++ post, next := next } w r =
        callNext { config := pre ++ post, next := next } w r) := by
  have hshort : ServeHTTP Matches { config := pre ++ c :: post, next := next } w r =
        callNext { config := pre ++ c :: post, next := next } w r →
      ServeHTTP Matches { config := pre ++ post, next := next } w r =
        callNext { config := pre ++ post, next := next } w r := by
    intro h
    rw [ServeHTTP_eq_callNext_iff] at h ⊢
    obtain ⟨username, password, hauth, hall⟩ := h
    refine ⟨username, password, hauth, ?_⟩
    intro b hb
    apply hall b
    rcases List.mem_append.1 hb with h1 | h2
    · exact List.mem_append.2 (Or.inl h1)
    · exact List.mem_append.2 (Or.inr (List.mem_cons_of_mem _ h2))
  refine ⟨?_, hshort⟩
  rintro ⟨realm, hden⟩
  rcases ServeHTTP_cases Matches { config := pre ++ c :: post, next := next } w r with
    e | ⟨_, e⟩ | ⟨_, _, _, e | e⟩
  · have := hshort e
    rw [hden] at this
    exact absurd this (basicAuth_ne_callNext _ w w r _)
  · exact ⟨_, e⟩
  · exact ⟨_, e⟩
  · exact ⟨_, e⟩

/-- Witness of C20: `GET /secret` as `alice:wrong`, denied by the sample block, stays denied
when a block without rules is put in front. -/
theorem adding_a_block_only_restricts_witness :
    (∃ realm, ServeHTTP exactMatch { config := [] ++ [sampleConfig], next := sampleNext }
        emptyWriter wrongPasswordRequest = basicAuth emptyWriter realm) ∧
      ∃ realm, ServeHTTP exactMatch
        { config := [] ++ { sampleConfig with rules := [] } :: [sampleConfig],
          next := sampleNext } emptyWriter wrongPasswordRequest = basicAuth emptyWriter realm :=
  ⟨⟨"Invalid password alice - wrong", by decide⟩,
    (adding_a_block_only_restricts exactMatch sampleNext emptyWriter wrongPasswordRequest []
      { sampleConfig with rules := [] } [sampleConfig]).1
      ⟨"Invalid password alice - wrong", by decide⟩⟩

end Basically
